import Mathlib

/-!
# DS18B20 temperature logger: bounded buffer, sampler and persister

A shallow embedding of `temp_logger.c` (and of `read_temperature`, which
`temp_reader.c` shares with it).

* A C `float` is represented by the rational number it denotes.  Only finite
  values occur in the program: every sample comes from `read_temperature`,
  which computes `temp_raw / 1000.0` from an `int`.
* The C `int` fields `head`, `tail`, `count` are integers (`ℤ`); the C operator
  `%` is `Int.tmod` (truncating remainder).
* `BUFFER_SIZE` is a parameter `N` of the buffer operations; the program fixes
  it to `100`.
* A blocking call is modelled by its outcome at one pass from the lock: either
  the caller enters `pthread_cond_wait` (outcome `waits`, buffer untouched) or
  the body runs.
-/

namespace TempLogger

/-! ## Data model -/

/-- A C `float`, as the rational number it denotes. -/
abbrev CFloat := ℚ

/-- The macro `BUFFER_SIZE` of `temp_logger.c`. -/
def BUFFER_SIZE : ℕ := 100

/-- The literal `-999.0`: initial value of `temperature` in `read_temperature`,
return value of `buffer_get` on its closed path, and the value both threads
compare against. -/
def FAIL_VALUE : CFloat := -999

/-- The struct `CircularBuffer` without its synchronisation fields. -/
structure CircularBuffer where
  data : List CFloat
  head : ℤ
  tail : ℤ
  count : ℤ
  deriving DecidableEq

/-- The function `buffer_init`: resets the three indices, leaves `data` alone. -/
def buffer_init (buf : CircularBuffer) : CircularBuffer :=
  { buf with head := 0, tail := 0, count := 0 }

/-- Outcome of `buffer_put` at one pass from the lock. -/
inductive PutOutcome where
  | waits
  | done (buf : CircularBuffer)
  deriving DecidableEq

/-- Outcome of `buffer_get` at one pass from the lock. -/
inductive GetOutcome where
  | waits
  | returned (temp : CFloat) (buf : CircularBuffer)
  deriving DecidableEq

/-- Lines 52-54 of `buffer_put`: store at `head`, advance `head`, bump `count`. -/
def put_body (N : ℕ) (buf : CircularBuffer) (temp : CFloat) : CircularBuffer :=
  { data := buf.data.set buf.head.toNat temp
    head := (buf.head + 1).tmod N
    tail := buf.tail
    count := buf.count + 1 }

/-- The function `buffer_put`: waits while `count == BUFFER_SIZE`, else runs the body. -/
def buffer_put (N : ℕ) (buf : CircularBuffer) (temp : CFloat) : PutOutcome :=
  if buf.count = N then .waits else .done (put_body N buf temp)

/-- Lines 75-77 of `buffer_get`: load from `tail`, advance `tail`, drop `count`. -/
def get_body (N : ℕ) (buf : CircularBuffer) : CFloat × CircularBuffer :=
  (buf.data.getD buf.tail.toNat 0,
   { data := buf.data
     head := buf.head
     tail := (buf.tail + 1).tmod N
     count := buf.count - 1 })

/-- The function `buffer_get`, given the value of the global `running`:
waits while `count == 0 && running`; returns `-999.0` without touching the
buffer if `!running && count == 0`; else runs the body. -/
def buffer_get (N : ℕ) (running : Bool) (buf : CircularBuffer) : GetOutcome :=
  if buf.count = 0 ∧ running = true then .waits
  else if running = false ∧ buf.count = 0 then .returned FAIL_VALUE buf
  else .returned (get_body N buf).1 (get_body N buf).2

/-- The buffered samples, oldest first: the `count` slots from `tail` on,
wrapping round at `N`. -/
def contents (N : ℕ) (buf : CircularBuffer) : List CFloat :=
  (List.range buf.count.toNat).map fun i => buf.data.getD ((buf.tail.toNat + i) % N) 0

/-- Representation invariant of the circular buffer. -/
def WF (N : ℕ) (buf : CircularBuffer) : Prop :=
  buf.data.length = N ∧ 0 ≤ buf.head ∧ buf.head < N ∧ 0 ≤ buf.tail ∧ buf.tail < N ∧
    0 ≤ buf.count ∧ buf.count ≤ N ∧ buf.head = (buf.tail + buf.count).tmod N

/-- Buffer states reachable from `buffer_init` by completed puts and gets. -/
inductive Reachable (N : ℕ) : CircularBuffer → Prop where
  | init (b0 : CircularBuffer) (h : b0.data.length = N) : Reachable N (buffer_init b0)
  | put (b b' : CircularBuffer) (temp : CFloat) :
      Reachable N b → buffer_put N b temp = .done b' → Reachable N b'
  | get (b b' : CircularBuffer) (running : Bool) (temp : CFloat) :
      Reachable N b → buffer_get N running b = .returned temp b' → Reachable N b'

/-! ## Sequences of calls on the buffer -/

/-- One call on the buffer: a put of a sample, or a get made while the global
`running` has the given value. -/
inductive Op where
  | put (temp : CFloat)
  | get (running : Bool)
  deriving DecidableEq

/-- The samples passed to the puts of a call sequence, in order. -/
def putsOf : List Op → List CFloat
  | [] => []
  | .put temp :: ops => temp :: putsOf ops
  | .get _ :: ops => putsOf ops

/-- The number of gets of a call sequence. -/
def getsOf : List Op → ℕ
  | [] => 0
  | .put _ :: ops => getsOf ops
  | .get _ :: ops => getsOf ops + 1

/-- Runs the calls one after another on the buffer.  The result is the list of
values the gets returned, in order, and the final buffer; `none` if one of the
calls has to wait. -/
def runOps (N : ℕ) : List Op → CircularBuffer → Option (List CFloat × CircularBuffer)
  | [], buf => some ([], buf)
  | .put temp :: ops, buf =>
      match buffer_put N buf temp with
      | .done b => runOps N ops b
      | .waits => none
  | .get running :: ops, buf =>
      match buffer_get N running buf with
      | .returned v b => (runOps N ops b).map fun r => (v :: r.1, r.2)
      | .waits => none

/-- Each put of the call sequence runs with `count < N` and each get with
`count > 0`, when the calls run one after another from the given buffer. -/
def noWait (N : ℕ) : List Op → CircularBuffer → Bool
  | [], _ => true
  | .put temp :: ops, buf => decide (buf.count < N) && noWait N ops (put_body N buf temp)
  | .get _ :: ops, buf => decide (0 < buf.count) && noWait N ops (get_body N buf).2

/-- Enqueues the samples one after another with `buffer_put`; `none` if one of
the puts has to wait. -/
def putAll (N : ℕ) : List CFloat → CircularBuffer → Option CircularBuffer
  | [], buf => some buf
  | temp :: rest, buf =>
      match buffer_put N buf temp with
      | .done b => putAll N rest b
      | .waits => none

/-- Calls `buffer_get` `k` times in a row under the given value of `running`;
returns the values returned, in order, and the final buffer; `none` if one of
the gets has to wait. -/
def getMany (N : ℕ) (running : Bool) : ℕ → CircularBuffer → Option (List CFloat × CircularBuffer)
  | 0, buf => some ([], buf)
  | k + 1, buf =>
      match buffer_get N running buf with
      | .returned v b => (getMany N running k b).map fun r => (v :: r.1, r.2)
      | .waits => none

/-- The globals of `temp_logger.c`: the flag `running` and the shared `buffer`. -/
structure Globals where
  running : Bool
  buffer : CircularBuffer
  deriving DecidableEq

/-- The function `signal_handler`, the termination trigger: `running = 0`. -/
def signal_handler (g : Globals) : Globals :=
  { g with running := false }

/-- The test `temperature == -999.0` by which `logger_thread` recognises the
closed result of `buffer_get`. -/
def logger_sees_closed (temperature : CFloat) : Bool :=
  temperature == FAIL_VALUE

/-! ## The sampler loop -/

/-- The arguments of the calls of `buffer_put` made by the loop of
`sensor_thread`, in order, when the successive calls of `read_temperature`
return the given values: a value is enqueued when `temperature != -999.0`. -/
def sensor_thread_puts : List CFloat → List CFloat
  | [] => []
  | temperature :: rest =>
      if temperature ≠ FAIL_VALUE then temperature :: sensor_thread_puts rest
      else sensor_thread_puts rest

/-- The loop of `sensor_thread` run on a buffer, one iteration per read result;
`none` if a put has to wait. -/
def sensor_thread_loop (N : ℕ) : List CFloat → CircularBuffer → Option CircularBuffer
  | [], buf => some buf
  | temperature :: rest, buf =>
      if temperature ≠ FAIL_VALUE then
        match buffer_put N buf temperature with
        | .done b => sensor_thread_loop N rest b
        | .waits => none
      else sensor_thread_loop N rest buf

/-! ## Concrete states used as examples -/

/-- The global `buffer` at program start: zero-initialised storage. -/
def buffer0 : CircularBuffer :=
  { data := List.replicate BUFFER_SIZE 0, head := 0, tail := 0, count := 0 }

/-- The call sequence `put 0, get, put 1, get, ...` with 150 puts: more values
than the buffer has slots pass through it, so `head` and `tail` wrap round. -/
def wrapOps : List Op :=
  (List.range 150).flatMap fun i => [Op.put (i : ℚ), Op.get true]

/-- The values the gets of `wrapOps` return. -/
def wrapOuts : List CFloat :=
  (List.range 150).map fun i => (i : ℚ)

/-- The buffer after `wrapOps`. -/
def wrapFinal : CircularBuffer :=
  { data := (List.range 100).map fun i => if i < 50 then ((i + 100 : ℕ) : ℚ) else (i : ℚ)
    head := 50, tail := 50, count := 0 }

/-- A buffer of capacity 2 at start. -/
def small0 : CircularBuffer :=
  { data := [0, 0], head := 0, tail := 0, count := 0 }

/-- The capacity-2 buffer after `put(10.0)` and `put(20.0)`: full. -/
def smallFull : CircularBuffer :=
  { data := [10, 20], head := 0, tail := 0, count := 2 }

/-- The samples of the shutdown scenario. -/
def shutdownSamples : List CFloat := [21.5, 21.7]

/-- The buffer after the two puts of the shutdown scenario. -/
def shutdownFilled : CircularBuffer :=
  { data := [21.5, 21.7] ++ List.replicate 98 0, head := 2, tail := 0, count := 2 }

/-- The buffer after the two gets of the shutdown scenario. -/
def shutdownDrained : CircularBuffer :=
  { data := [21.5, 21.7] ++ List.replicate 98 0, head := 2, tail := 2, count := 0 }

/-- The buffer holding the single sample `-999.0`. -/
def sentinelFilled : CircularBuffer :=
  { data := [FAIL_VALUE] ++ List.replicate 99 0, head := 1, tail := 0, count := 1 }

/-- The buffer `sentinelFilled` after one get. -/
def sentinelDrained : CircularBuffer :=
  { data := [FAIL_VALUE] ++ List.replicate 99 0, head := 1, tail := 1, count := 0 }

/-! ## The function `read_temperature`

The sensor file is what `fopen` gives: nothing when it cannot be opened, else
its characters.  The arithmetic `temp_raw / 1000.0` is an IEEE-754 binary64
division, and the assignment to `float temperature` rounds the quotient to
binary32; both round to nearest, ties to even.  The exponent range is left
unbounded: `temp_raw` is an `int`, and a quotient of an `int` by 1000 is zero or
lies between `2^-10` and `2^22` in magnitude, far from the overflow and
underflow thresholds of both formats. -/

/-- Round to the nearest integer, ties to the even one. -/
def roundNearestEven (x : ℚ) : ℤ :=
  if x - ⌊x⌋ < 1 / 2 then ⌊x⌋
  else if 1 / 2 < x - ⌊x⌋ then ⌊x⌋ + 1
  else if ⌊x⌋ % 2 = 0 then ⌊x⌋ else ⌊x⌋ + 1

/-- Round a number to the nearest binary floating-point number with a
significand of `p` bits, ties to even: with `2^e <= |q| < 2^(e+1)` the result is
the multiple of `2^(e-p+1)` nearest to `q`. -/
def roundBinary (p : ℕ) (q : ℚ) : ℚ :=
  if q = 0 then 0
  else roundNearestEven (q / 2 ^ (Int.log 2 |q| - p + 1)) * 2 ^ (Int.log 2 |q| - p + 1)

/-- Rounding to `double` (binary64, 53-bit significand). -/
def to_double (q : ℚ) : ℚ := roundBinary 53 q

/-- Rounding to `float` (binary32, 24-bit significand). -/
def to_float (q : ℚ) : CFloat := roundBinary 24 q

/-- The C library predicate `isspace` in the C locale. -/
def isspace (c : Char) : Bool :=
  c.toNat = 32 ∨ (9 ≤ c.toNat ∧ c.toNat ≤ 13)

/-- The C library predicate `isdigit`. -/
def isdigit (c : Char) : Bool :=
  48 ≤ c.toNat ∧ c.toNat ≤ 57

/-- The decimal value of the leading digits of a string, continuing from `acc`. -/
def digits_value : List Char → ℕ → ℕ
  | [], acc => acc
  | c :: s, acc => if isdigit c then digits_value s (10 * acc + (c.toNat - 48)) else acc

/-- The value the C library function `strtol` returns for a sign and the number
its digits denote, where `long` has 64 bits: a number out of the range of
`long` gives `LONG_MIN` or `LONG_MAX`. -/
def strtol_value (negative : Bool) (digits : ℕ) : ℤ :=
  if negative then max (-(digits : ℤ)) (-(2 ^ 63)) else min (digits : ℤ) (2 ^ 63 - 1)

/-- The conversion of a `long` to `int`: the value is reduced modulo `2^32` into
the range of `int`. -/
def long_to_int (z : ℤ) : ℤ :=
  (z + 2 ^ 31) % 2 ^ 32 - 2 ^ 31

/-- The C library function `atoi`, as glibc has it, `(int) strtol(s, NULL, 10)`:
skips white space, reads an optional sign and the digits that follow, and
returns their value as an `int`; digits that denote a number out of the range of
`int` wrap round. -/
def atoi (s : List Char) : ℤ :=
  match s.dropWhile isspace with
  | [] => 0
  | c :: r =>
      if c = '-' then long_to_int (strtol_value true (digits_value r 0))
      else if c = '+' then long_to_int (strtol_value false (digits_value r 0))
      else long_to_int (strtol_value false (digits_value (c :: r) 0))

/-- The characters one call of `fgets` with room for `n` characters takes from
the stream, and the stream left: it stops after a newline, at the end of the
stream, or when `n` characters are read. -/
def fgets_chars : ℕ → List Char → List Char × List Char
  | 0, stream => ([], stream)
  | _ + 1, [] => ([], [])
  | n + 1, c :: stream =>
      if c = Char.ofNat 10 then ([c], stream)
      else ((c :: (fgets_chars n stream).1), (fgets_chars n stream).2)

/-- The C library function `fgets(line, size, fp)`: `none` (a null pointer) at the
end of the stream, else the characters stored in `line` (at most `size - 1`)
and the stream left. -/
def fgets (size : ℕ) (stream : List Char) : Option (List Char × List Char) :=
  if stream = [] then none else some (fgets_chars (size - 1) stream)

/-- The C string held by a character array: its characters up to the first NUL. -/
def c_string (chars : List Char) : List Char :=
  chars.takeWhile fun c => c ≠ Char.ofNat 0

/-- The C library function `strstr`: the part of the string from the first
occurrence of the needle on, `none` (a null pointer) if there is none. -/
def strstr : List Char → List Char → Option (List Char)
  | [], needle => if needle = [] then some [] else none
  | c :: hay, needle =>
      if needle.isPrefixOf (c :: hay) then some (c :: hay) else strstr hay needle

/-- The string literal `"YES"`, the CRC marker of the first line. -/
def YES : List Char := "YES".toList

/-- The string literal `"t="`, the temperature marker of the second line. -/
def T_EQ : List Char := "t=".toList

/-- The function `read_temperature` of `temp_logger.c` and `temp_reader.c`, on
the sensor file as `fopen` finds it. -/
def read_temperature (file : Option (List Char)) : CFloat :=
  match file with
  | none => FAIL_VALUE
  | some stream =>
    match fgets 256 stream with
    | none => FAIL_VALUE
    | some (line1, rest) =>
      match strstr (c_string line1) YES with
      | none => FAIL_VALUE
      | some _ =>
        match fgets 256 rest with
        | none => FAIL_VALUE
        | some (line2, _) =>
          match strstr (c_string line2) T_EQ with
          | none => FAIL_VALUE
          | some temp_pos => to_float (to_double ((atoi (temp_pos.drop 2) : ℚ) / 1000))

/-- What the first `fgets` of `read_temperature` stores in `line`; `none` when the
file cannot be opened or is empty. -/
def first_chunk (file : Option (List Char)) : Option (List Char) :=
  file.bind fun stream => (fgets 256 stream).map Prod.fst

/-- What a second `fgets` stores in `line`; `none` when there is no first chunk
or nothing after it. -/
def second_chunk (file : Option (List Char)) : Option (List Char) :=
  file.bind fun stream => (fgets 256 stream).bind fun r => (fgets 256 r.2).map Prod.fst

/-- The caller's test `temperature != -999.0` in `sensor_thread` and in `main` of
`temp_reader.c`. -/
def caller_accepts (temperature : CFloat) : Bool :=
  temperature != FAIL_VALUE

/-- A sensor file in the format of the DS18B20 driver, reading 21.5 degrees. -/
def goodFile : Option (List Char) :=
  some "72 01 4b 46 7f ff 0e 10 57 : crc=57 YES\n72 01 4b 46 7f ff 0e 10 57 t=21500\n".toList

/-- A sensor file whose digits after `t=` do not fit an `int`. -/
def wrappingFile : Option (List Char) :=
  some "YES\nt=4293968296\n".toList

/-- A well-formed sensor file whose reading is -999000 millidegrees. -/
def collidingFile : Option (List Char) :=
  some "00 00 00 00 00 00 00 00 00 : crc=00 YES\n00 00 00 00 00 00 00 00 00 t=-999000\n".toList

/-! ## The two threads and the termination trigger

The program as a transition system: a state holds the globals and the point
each thread has reached; one step is one action of the sampler thread, of the
logger thread, or one delivery of the termination signal.  The capacity of the
buffer is the parameter `N`, as for the buffer operations.

* `pthread_mutex_lock` is a step enabled only while the mutex is free.
* `pthread_cond_wait` releases the mutex and blocks the caller; a blocked thread
  has no step of its own.  `pthread_cond_signal` moves a thread blocked on the
  condition to the point where it takes the mutex again, and does nothing when
  no thread is blocked on it.  POSIX allows spurious wake-ups but promises none;
  none occur here.
* The lines a thread runs between taking and releasing the mutex without
  reading `running` are one step.  The two tests of `buffer_get` that read
  `running`, and its call of `pthread_cond_wait`, are separate steps, as are the
  two reads of the loop test `running || buffer.count > 0` of `logger_thread`,
  which run without the mutex.
* Once `logger_thread` has left its loop it still runs `fclose`, `printf` and
  `return`; that is a step of its own, after its last look at the buffer.
-/

/-- The thread that holds the mutex. -/
inductive Thread where
  | sensor
  | logger
  deriving DecidableEq

/-- Where `sensor_thread` stands. -/
inductive SensorPc where
  /-- at the test of `while (running)` -/
  | loop
  /-- about to call `read_temperature` -/
  | read
  /-- in `buffer_put`, about to lock the mutex -/
  | put_lock (temp : CFloat)
  /-- in `buffer_put`, holding the mutex, at the test `count == BUFFER_SIZE` -/
  | put_test (temp : CFloat)
  /-- in `buffer_put`, holding the mutex, about to call `pthread_cond_wait` -/
  | put_enter_wait (temp : CFloat)
  /-- in `buffer_put`, blocked in `pthread_cond_wait` on `not_full` -/
  | put_wait (temp : CFloat)
  /-- in `buffer_put`, signalled, about to take the mutex again -/
  | put_woken (temp : CFloat)
  /-- at `sleep(2)` -/
  | sleep
  /-- out of the loop, about to call `pthread_cond_signal(&buffer.not_empty)` -/
  | exit_signal
  /-- returned -/
  | done
  deriving DecidableEq

/-- Where `logger_thread` stands. -/
inductive LoggerPc where
  /-- about to call `fopen` -/
  | start
  /-- at the loop test, about to read `running` -/
  | loop
  /-- at the loop test, `running` read as 0, about to read `buffer.count` -/
  | loop_count
  /-- in `buffer_get`, about to lock the mutex -/
  | get_lock
  /-- in `buffer_get`, holding the mutex, at the test `count == 0 && running` -/
  | get_test
  /-- in `buffer_get`, holding the mutex, about to call `pthread_cond_wait` -/
  | get_enter_wait
  /-- in `buffer_get`, blocked in `pthread_cond_wait` on `not_empty` -/
  | get_wait
  /-- in `buffer_get`, signalled, about to take the mutex again -/
  | get_woken
  /-- in `buffer_get`, holding the mutex, at the test `!running && count == 0` -/
  | get_if
  /-- out of the loop, about to run `fclose`, `printf` and `return` -/
  | closing
  /-- returned -/
  | done
  deriving DecidableEq

/-- The logger has had its last look at the buffer: it is out of its loop or has
returned. -/
def past_last_look (pc : LoggerPc) : Bool :=
  match pc with
  | .closing => true
  | .done => true
  | _ => false

/-- A state of the program.  The last three fields are history, not program
variables: the samples passed to completed puts, the samples the logger wrote
to its file, and the number of puts completed after the logger's last look at
the buffer. -/
structure Sys where
  running : Bool
  buffer : CircularBuffer
  mutex : Option Thread
  sensor : SensorPc
  logger : LoggerPc
  opened : Bool
  enqueued : List CFloat
  written : List CFloat
  late : ℕ
  deriving DecidableEq

/-- One action of the environment or of a thread. -/
inductive Action where
  /-- delivery of SIGINT or SIGTERM: `signal_handler` runs -/
  | trigger
  /-- one step of `sensor_thread`; `reading` is what `read_temperature` returns
  if the step is that call -/
  | sensor (reading : CFloat)
  /-- one step of `logger_thread`; `fopen_ok` tells whether `fopen` succeeds if
  the step is that call -/
  | logger (fopen_ok : Bool)
  deriving DecidableEq

/-- The state when `main` has run `buffer_init` on the buffer and created the two
threads. -/
def Sys.start (b0 : CircularBuffer) : Sys :=
  { running := true
    buffer := buffer_init b0
    mutex := none
    sensor := .loop
    logger := .start
    opened := false
    enqueued := []
    written := []
    late := 0 }

/-- The start state of the program: the global `buffer` has 100 zeroed slots. -/
def Sys.init : Sys :=
  Sys.start buffer0

/-- Effect of `pthread_cond_signal(&buffer.not_empty)` on the logger. -/
def signal_not_empty (pc : LoggerPc) : LoggerPc :=
  match pc with
  | .get_wait => .get_woken
  | pc => pc

/-- Effect of `pthread_cond_signal(&buffer.not_full)` on the sampler. -/
def signal_not_full (pc : SensorPc) : SensorPc :=
  match pc with
  | .put_wait temp => .put_woken temp
  | pc => pc

/-- One step of `sensor_thread`; `none` when the thread is blocked or has
returned. -/
def sensor_step (N : ℕ) (reading : CFloat) (s : Sys) : Option Sys :=
  match s.sensor with
  | .loop => some { s with sensor := if s.running then .read else .exit_signal }
  | .read =>
      some { s with sensor := if reading ≠ FAIL_VALUE then .put_lock reading else .sleep }
  | .put_lock temp =>
      if s.mutex = none then some { s with mutex := some .sensor, sensor := .put_test temp }
      else none
  | .put_test temp =>
      match buffer_put N s.buffer temp with
      | .waits => some { s with sensor := .put_enter_wait temp }
      | .done b =>
          some { s with
            buffer := b
            logger := signal_not_empty s.logger
            mutex := none
            sensor := .sleep
            enqueued := s.enqueued ++ [temp]
            late := if past_last_look s.logger then s.late + 1 else s.late }
  | .put_enter_wait temp => some { s with mutex := none, sensor := .put_wait temp }
  | .put_wait _ => none
  | .put_woken temp =>
      if s.mutex = none then some { s with mutex := some .sensor, sensor := .put_test temp }
      else none
  | .sleep => some { s with sensor := .loop }
  | .exit_signal => some { s with logger := signal_not_empty s.logger, sensor := .done }
  | .done => none

/-- One step of `logger_thread`; `none` when the thread is blocked or has
returned. -/
def logger_step (N : ℕ) (fopen_ok : Bool) (s : Sys) : Option Sys :=
  match s.logger with
  | .start =>
      if fopen_ok then some { s with opened := true, logger := .loop }
      else some { s with logger := .done }
  | .loop => some { s with logger := if s.running then .get_lock else .loop_count }
  | .loop_count => some { s with logger := if 0 < s.buffer.count then .get_lock else .closing }
  | .get_lock =>
      if s.mutex = none then some { s with mutex := some .logger, logger := .get_test }
      else none
  | .get_test =>
      some { s with
        logger := if s.buffer.count = 0 ∧ s.running = true then .get_enter_wait else .get_if }
  | .get_enter_wait => some { s with mutex := none, logger := .get_wait }
  | .get_wait => none
  | .get_woken =>
      if s.mutex = none then some { s with mutex := some .logger, logger := .get_test }
      else none
  | .get_if =>
      if s.running = false ∧ s.buffer.count = 0 then
        some { s with mutex := none, logger := .closing }
      else
        some { s with
          buffer := (get_body N s.buffer).2
          sensor := signal_not_full s.sensor
          mutex := none
          logger := if logger_sees_closed (get_body N s.buffer).1 then .closing else .loop
          written :=
            if logger_sees_closed (get_body N s.buffer).1 then s.written
            else s.written ++ [(get_body N s.buffer).1] }
  | .closing => some { s with logger := .done }
  | .done => none

/-- One step of the program. -/
def step (N : ℕ) (a : Action) (s : Sys) : Option Sys :=
  match a with
  | .trigger => some { s with running := (signal_handler ⟨s.running, s.buffer⟩).running }
  | .sensor reading => sensor_step N reading s
  | .logger fopen_ok => logger_step N fopen_ok s

/-- Runs a sequence of actions; `none` if one of them is not enabled. -/
def run (N : ℕ) : List Action → Sys → Option Sys
  | [], s => some s
  | a :: acts, s => (step N a s).bind (run N acts)

/-- The states the program can reach, with a buffer of `N` slots. -/
inductive SysReachable (N : ℕ) : Sys → Prop where
  | init (b0 : CircularBuffer) (h : b0.data.length = N) : SysReachable N (Sys.start b0)
  | step (a : Action) (s s' : Sys) : SysReachable N s → step N a s = some s' → SysReachable N s'

/-- Both threads have returned: the two calls of `pthread_join` in `main`
complete. -/
def Sys.joined (s : Sys) : Prop :=
  s.sensor = .done ∧ s.logger = .done

instance (s : Sys) : Decidable s.joined := by
  unfold Sys.joined
  infer_instance

/-- The sample the sampler is about to enqueue, if any. -/
def sample_in_hand (pc : SensorPc) : Option CFloat :=
  match pc with
  | .put_lock temp => some temp
  | .put_test temp => some temp
  | .put_enter_wait temp => some temp
  | .put_wait temp => some temp
  | .put_woken temp => some temp
  | _ => none

/-- The invariant of the program: what holds in every reachable state. -/
structure Inv (N : ℕ) (s : Sys) : Prop where
  wf : WF N s.buffer
  samples_ok : ∀ v ∈ contents N s.buffer, v ≠ FAIL_VALUE
  hand_ok : ∀ t, sample_in_hand s.sensor = some t → t ≠ FAIL_VALUE
  history : s.enqueued = s.written ++ contents N s.buffer
  start_unopened : s.logger = .start → s.opened = false
  unopened : s.opened = false → s.written = [] ∧ (s.logger = .start ∨ s.logger = .done)
  late_zero : past_last_look s.logger = false → s.late = 0
  after_logger : past_last_look s.logger = true → s.opened = true → s.buffer.count = s.late
  get_if_ok : s.logger = .get_if → s.buffer.count ≠ 0 ∨ s.running = false

/-- The sampler is between taking and releasing the mutex. -/
def sensor_holds (pc : SensorPc) : Bool :=
  match pc with
  | .put_test _ => true
  | .put_enter_wait _ => true
  | _ => false

/-- The logger is between taking and releasing the mutex. -/
def logger_holds (pc : LoggerPc) : Bool :=
  match pc with
  | .get_test => true
  | .get_enter_wait => true
  | .get_if => true
  | _ => false

/-- The sampler waits on `not_full`, or is about to. -/
def sensor_waits (pc : SensorPc) : Bool :=
  match pc with
  | .put_enter_wait _ => true
  | .put_wait _ => true
  | _ => false

/-- The locking discipline of the program: the mutex is held exactly by the
thread that stands between a lock and an unlock; the sampler is out of its loop
only once `running` is 0; the logger waits, or is about to, only on an empty
buffer, and the sampler only on a full one. -/
structure MutexInv (N : ℕ) (s : Sys) : Prop where
  sensor_iff : s.mutex = some .sensor ↔ sensor_holds s.sensor = true
  logger_iff : s.mutex = some .logger ↔ logger_holds s.logger = true
  exit_closed : s.sensor = .exit_signal ∨ s.sensor = .done → s.running = false
  wait_empty : s.logger = .get_enter_wait ∨ s.logger = .get_wait → s.buffer.count = 0
  wait_full : sensor_waits s.sensor = true → s.buffer.count = N

/-! ## Concrete runs of the program -/

/-- The buffer holding the single sample `22.0`. -/
def oneSample : CircularBuffer :=
  { data := [22] ++ List.replicate 99 0, head := 1, tail := 0, count := 1 }

/-- The buffer after the sample `22.0` has been put and taken out. -/
def oneSampleTaken : CircularBuffer :=
  { data := [22] ++ List.replicate 99 0, head := 1, tail := 1, count := 0 }

/-- The sink cannot be opened; the sampler enqueues `22.0`; the trigger fires; the
sampler leaves its loop and returns. -/
def sinkFailureTrace : List Action :=
  [.logger false, .sensor 0, .sensor 22, .sensor 0, .sensor 0, .trigger, .sensor 0, .sensor 0,
   .sensor 0]

/-- The state `sinkFailureTrace` leads to. -/
def sinkFailureState : Sys :=
  { running := false
    buffer := oneSample
    mutex := none
    sensor := .done
    logger := .done
    opened := false
    enqueued := [22]
    written := []
    late := 1 }

/-- The sink opens; the sampler passes its loop test; the trigger fires; the logger
sees `running == 0` and an empty buffer, leaves its loop and returns; the
sampler then enqueues the `22.0` it read, leaves its loop and returns. -/
def latePutTrace : List Action :=
  [.logger true, .sensor 0, .trigger, .logger true, .logger true, .logger true, .sensor 22,
   .sensor 0, .sensor 0, .sensor 0, .sensor 0, .sensor 0]

/-- The state `latePutTrace` leads to. -/
def latePutState : Sys :=
  { running := false
    buffer := oneSample
    mutex := none
    sensor := .done
    logger := .done
    opened := true
    enqueued := [22]
    written := []
    late := 1 }

/-- The logger finds the buffer empty and `running` set and is about to call
`pthread_cond_wait`; the trigger fires; the sampler leaves its loop and signals
`not_empty`, which nobody waits on yet; the logger then blocks. -/
def missedWakeupTrace : List Action :=
  [.logger true, .logger true, .logger true, .logger true, .trigger, .sensor 0, .sensor 0,
   .logger true]

/-- The state `missedWakeupTrace` leads to. -/
def missedWakeupState : Sys :=
  { running := false
    buffer := buffer_init buffer0
    mutex := none
    sensor := .done
    logger := .get_wait
    opened := true
    enqueued := []
    written := []
    late := 0 }

/-- A clean shutdown: the sink opens, the sampler enqueues `22.0`, the logger writes
it, the trigger fires, the sampler leaves its loop and returns, then the logger
finds `running == 0` and the buffer empty and returns. -/
def cleanTrace : List Action :=
  [.logger true, .sensor 0, .sensor 22, .sensor 0, .sensor 0, .logger true, .logger true,
   .logger true, .logger true, .trigger, .sensor 0, .sensor 0, .sensor 0, .logger true,
   .logger true, .logger true]

/-- The state `cleanTrace` leads to. -/
def cleanState : Sys :=
  { running := false
    buffer := oneSampleTaken
    mutex := none
    sensor := .done
    logger := .done
    opened := true
    enqueued := [22]
    written := [22]
    late := 0 }

/-- The logger is blocked on the empty buffer, `running` is still set, and the
trigger fires; the sampler leaves its loop and signals; the logger wakes, takes
the mutex, sees the closure and returns. -/
def wakeTrace : List Action :=
  [.logger true, .logger true, .logger true, .logger true, .logger true, .trigger, .sensor 0,
   .sensor 0, .logger true, .logger true, .logger true, .logger true]

/-- The state `wakeTrace` leads to. -/
def wakeState : Sys :=
  { running := false
    buffer := buffer_init buffer0
    mutex := none
    sensor := .done
    logger := .done
    opened := true
    enqueued := []
    written := []
    late := 0 }

/-- With a buffer of 2 slots: the sampler enqueues `10.0` and `20.0`, reads `30.0`,
finds the buffer full in `buffer_put` and blocks in `pthread_cond_wait`; the
logger opens its sink, passes its loop test and is about to call `buffer_get`. -/
def pendingPutTrace : List Action :=
  [.sensor 0, .sensor 10, .sensor 0, .sensor 0, .sensor 0,
   .sensor 0, .sensor 20, .sensor 0, .sensor 0, .sensor 0,
   .sensor 0, .sensor 30, .sensor 0, .sensor 0, .sensor 0,
   .logger true, .logger true]

/-- The state `pendingPutTrace` leads to. -/
def pendingPutState : Sys :=
  { running := true
    buffer := smallFull
    mutex := none
    sensor := .put_wait 30
    logger := .get_lock
    opened := true
    enqueued := [10, 20]
    written := []
    late := 0 }

/-- The state after `pendingPutState` when the logger has run its `buffer_get`: the
sample `10.0` is taken out and written, and the sampler is woken. -/
def pendingPutWoken : Sys :=
  { running := true
    buffer := { data := [10, 20], head := 0, tail := 1, count := 1 }
    mutex := none
    sensor := .put_woken 30
    logger := .loop
    opened := true
    enqueued := [10, 20]
    written := [10]
    late := 0 }

/-- The state after `pendingPutWoken` when the sampler has taken the mutex again
and its put has completed: the buffer holds `20.0` and `30.0`. -/
def pendingPutDone : Sys :=
  { running := true
    buffer := { data := [30, 20], head := 1, tail := 1, count := 2 }
    mutex := none
    sensor := .sleep
    logger := .loop
    opened := true
    enqueued := [10, 20, 30]
    written := [10]
    late := 0 }

/-! ## Buffer lemmas -/

theorem wf_init (N : ℕ) (hN : 0 < N) (b0 : CircularBuffer) (h : b0.data.length = N) :
    WF N (buffer_init b0) := by
  simp [WF, buffer_init, h, hN, Int.tmod_eq_emod]

theorem wf_put_body (N : ℕ) (b : CircularBuffer) (temp : CFloat) (hw : WF N b)
    (hc : b.count ≠ N) : WF N (put_body N b temp) := by
  obtain ⟨data, head, tail, count⟩ := b
  obtain ⟨hl, hh0, hhN, ht0, htN, hc0, hcN, hrel⟩ := hw
  simp only at hl hh0 hhN ht0 htN hc0 hcN hrel hc
  have hN : (0 : ℤ) < N := by omega
  refine ⟨by simpa [put_body] using hl, ?_, ?_, ht0, htN, ?_, ?_, ?_⟩
  · simp only [put_body]
    rw [Int.tmod_eq_emod (by omega) (by omega)]
    exact Int.emod_nonneg _ (by omega)
  · simp only [put_body]
    rw [Int.tmod_eq_emod (by omega) (by omega)]
    exact Int.emod_lt_of_pos _ hN
  · simp only [put_body]; omega
  · simp only [put_body]; omega
  · simp only [put_body]
    rw [Int.tmod_eq_emod (by omega) (by omega), Int.tmod_eq_emod (by omega) (by omega)]
    rw [Int.tmod_eq_emod (by omega) (by omega)] at hrel
    rw [hrel, ← add_assoc, Int.emod_add_cancel_right]
    simp


theorem mod_index_ne (N t c i : ℕ) (hi : i < c) (hc : c < N) :
    (t + c) % N ≠ (t + i) % N := by
  intro h
  have h1 : Nat.ModEq N (t + c) (t + i) := h
  have h2 : Nat.ModEq N c i := Nat.ModEq.add_left_cancel' t h1
  have h3 : c % N = i % N := h2
  rw [Nat.mod_eq_of_lt hc, Nat.mod_eq_of_lt (by omega)] at h3
  omega

theorem contents_put_body (N : ℕ) (b : CircularBuffer) (temp : CFloat) (hw : WF N b)
    (hc : b.count ≠ N) : contents N (put_body N b temp) = contents N b ++ [temp] := by
  obtain ⟨data, head, tail, count⟩ := b
  obtain ⟨hl, hh0, hhN, ht0, htN, hc0, hcN, hrel⟩ := hw
  simp only at hl hh0 hhN ht0 htN hc0 hcN hrel hc
  lift tail to ℕ using ht0
  lift count to ℕ using hc0
  lift head to ℕ using hh0
  have hrel2 : head = (tail + count) % N := by
    rw [Int.tmod_eq_emod (by omega) (by omega)] at hrel
    exact_mod_cast hrel
  have hcn : count < N := by omega
  have hhd : head < data.length := by omega
  have e1 : ((count : ℤ) + 1).toNat = count + 1 := by omega
  simp only [contents, put_body, e1, Int.toNat_ofNat, List.range_succ, List.map_append,
    List.map_cons, List.map_nil]
  congr 1
  · apply List.map_congr_left
    intro i hi
    rw [List.mem_range] at hi
    have hne : head ≠ (tail + i) % N := by
      rw [hrel2]; exact mod_index_ne N tail count i hi hcn
    rw [List.getD_eq_getElem?_getD, List.getD_eq_getElem?_getD, List.getElem?_set_ne hne]
  · rw [← hrel2, List.getD_eq_getElem?_getD, List.getElem?_set_eq_of_lt _ hhd]
    rfl

theorem wf_get_body (N : ℕ) (b : CircularBuffer) (hw : WF N b) (hc : b.count ≠ 0) :
    WF N (get_body N b).2 := by
  obtain ⟨data, head, tail, count⟩ := b
  obtain ⟨hl, hh0, hhN, ht0, htN, hc0, hcN, hrel⟩ := hw
  simp only at hl hh0 hhN ht0 htN hc0 hcN hrel hc
  have hN : (0 : ℤ) < N := by omega
  refine ⟨by simpa [get_body] using hl, hh0, hhN, ?_, ?_, ?_, ?_, ?_⟩
  · simp only [get_body]
    rw [Int.tmod_eq_emod (by omega) (by omega)]
    exact Int.emod_nonneg _ (by omega)
  · simp only [get_body]
    rw [Int.tmod_eq_emod (by omega) (by omega)]
    exact Int.emod_lt_of_pos _ hN
  · simp only [get_body]; omega
  · simp only [get_body]; omega
  · simp only [get_body]
    have e : (tail + 1).tmod (N : ℤ) = (tail + 1) % (N : ℤ) :=
      Int.tmod_eq_emod (by omega) (by omega)
    have e0 : 0 ≤ (tail + 1) % (N : ℤ) := Int.emod_nonneg _ (by omega)
    rw [Int.tmod_eq_emod (by omega) (by omega)] at hrel
    rw [e, Int.tmod_eq_emod (by omega) (by omega), hrel, Int.emod_add_emod]
    congr 1
    ring

theorem contents_get_body (N : ℕ) (b : CircularBuffer) (hw : WF N b) (hc : b.count ≠ 0) :
    contents N b = (get_body N b).1 :: contents N (get_body N b).2 := by
  obtain ⟨data, head, tail, count⟩ := b
  obtain ⟨hl, hh0, hhN, ht0, htN, hc0, hcN, hrel⟩ := hw
  simp only at hl hh0 hhN ht0 htN hc0 hcN hrel hc
  lift tail to ℕ using ht0
  lift count to ℕ using hc0
  have htn : tail < N := by omega
  obtain ⟨c, rfl⟩ : ∃ c, count = c + 1 := ⟨count - 1, by omega⟩
  have e1 : (((c + 1 : ℕ) : ℤ) - 1).toNat = c := by omega
  have e2 : (((tail : ℤ) + 1).tmod N).toNat = (tail + 1) % N := by
    rw [Int.tmod_eq_emod (by omega) (by omega)]
    have : ((tail : ℤ) + 1) % (N : ℤ) = (((tail + 1) % N : ℕ) : ℤ) := by push_cast; rfl
    rw [this, Int.toNat_ofNat]
  simp only [contents, get_body, e1, e2, Int.toNat_ofNat, List.range_succ_eq_map, List.map_cons,
    List.map_map]
  congr 1
  · simp [Nat.mod_eq_of_lt htn]
  · apply List.map_congr_left
    intro i _
    simp only [Function.comp]
    congr 1
    rw [Nat.mod_add_mod]
    congr 1
    omega


theorem buffer_put_done (N : ℕ) (b : CircularBuffer) (temp : CFloat) (hc : b.count ≠ N) :
    buffer_put N b temp = .done (put_body N b temp) := by
  simp [buffer_put, hc]

theorem buffer_put_done_iff (N : ℕ) (b b' : CircularBuffer) (temp : CFloat) :
    buffer_put N b temp = .done b' ↔ b.count ≠ N ∧ b' = put_body N b temp := by
  unfold buffer_put
  split <;> simp_all [eq_comm]

theorem buffer_get_body (N : ℕ) (running : Bool) (b : CircularBuffer) (hc : b.count ≠ 0) :
    buffer_get N running b = .returned (get_body N b).1 (get_body N b).2 := by
  simp [buffer_get, hc]

theorem buffer_get_closed (N : ℕ) (b : CircularBuffer) (hc : b.count = 0) :
    buffer_get N false b = .returned FAIL_VALUE b := by
  simp [buffer_get, hc]

theorem buffer_get_returned_iff (N : ℕ) (running : Bool) (b b' : CircularBuffer) (v : CFloat) :
    buffer_get N running b = .returned v b' ↔
      (b.count = 0 ∧ running = false ∧ v = FAIL_VALUE ∧ b' = b) ∨
      (b.count ≠ 0 ∧ v = (get_body N b).1 ∧ b' = (get_body N b).2) := by
  unfold buffer_get
  by_cases hc : b.count = 0 <;> cases running <;> simp [hc, eq_comm]

theorem reachable_wf (N : ℕ) (hN : 0 < N) (b : CircularBuffer) (h : Reachable N b) : WF N b := by
  induction h with
  | init b0 h => exact wf_init N hN b0 h
  | put b b' temp _ hp ih =>
    rw [buffer_put_done_iff] at hp
    obtain ⟨hc, rfl⟩ := hp
    exact wf_put_body N b temp ih hc
  | get b b' running temp _ hg ih =>
    rw [buffer_get_returned_iff] at hg
    rcases hg with ⟨_, _, _, rfl⟩ | ⟨hc, _, rfl⟩
    · exact ih
    · exact wf_get_body N b ih hc

theorem contents_of_count_zero (N : ℕ) (b : CircularBuffer) (hc : b.count = 0) :
    contents N b = [] := by
  simp [contents, hc]

theorem runOps_spec (N : ℕ) (ops : List Op) :
    ∀ (b : CircularBuffer), WF N b → noWait N ops b = true →
      ∃ outs b', runOps N ops b = some (outs, b') ∧ WF N b' ∧ outs.length = getsOf ops ∧
        contents N b ++ putsOf ops = outs ++ contents N b' := by
  induction ops with
  | nil =>
    intro b hw _
    exact ⟨[], b, rfl, hw, rfl, by simp [putsOf]⟩
  | cons op ops ih =>
    intro b hw h
    cases op with
    | put temp =>
      simp only [noWait, Bool.and_eq_true, decide_eq_true_eq] at h
      obtain ⟨hlt, hrest⟩ := h
      have hc : b.count ≠ N := by omega
      obtain ⟨outs, b', h1, h2, h3, h4⟩ := ih _ (wf_put_body N b temp hw hc) hrest
      refine ⟨outs, b', ?_, h2, by simpa [getsOf] using h3, ?_⟩
      · simp only [runOps, buffer_put_done N b temp hc]
        exact h1
      · rw [contents_put_body N b temp hw hc] at h4
        simpa [putsOf] using h4
    | get running =>
      simp only [noWait, Bool.and_eq_true, decide_eq_true_eq] at h
      obtain ⟨hlt, hrest⟩ := h
      have hc : b.count ≠ 0 := by omega
      obtain ⟨outs, b', h1, h2, h3, h4⟩ := ih _ (wf_get_body N b hw hc) hrest
      refine ⟨(get_body N b).1 :: outs, b', ?_, h2, by simpa [getsOf] using h3, ?_⟩
      · simp only [runOps, buffer_get_body N running b hc, h1, Option.map_some']
      · rw [contents_get_body N b hw hc]
        simpa [putsOf] using h4

theorem reachable_runOps (N : ℕ) (ops : List Op) :
    ∀ (b : CircularBuffer) (outs : List CFloat) (b' : CircularBuffer), Reachable N b →
      runOps N ops b = some (outs, b') → Reachable N b' := by
  induction ops with
  | nil =>
    intro b outs b' hr h
    simp only [runOps, Option.some.injEq, Prod.mk.injEq] at h
    obtain ⟨_, rfl⟩ := h
    exact hr
  | cons op ops ih =>
    intro b outs b' hr h
    cases op with
    | put temp =>
      simp only [runOps] at h
      cases hp : buffer_put N b temp with
      | waits => simp [hp] at h
      | done b1 =>
        rw [hp] at h
        exact ih b1 outs b' (Reachable.put b b1 temp hr hp) h
    | get running =>
      simp only [runOps] at h
      cases hg : buffer_get N running b with
      | waits => simp [hg] at h
      | returned v b1 =>
        rw [hg] at h
        simp only [Option.map_eq_some', Prod.mk.injEq, Prod.exists] at h
        obtain ⟨o, bb, hr2, _, rfl⟩ := h
        exact ih b1 o bb (Reachable.get b b1 running v hr hg) hr2

/-! ## C1: FIFO order -/

/-- C1. FIFO order: a sequence of puts and gets applied one after another to a
buffer freshly set up by `buffer_init`, each put running with
`count < BUFFER_SIZE` and each get with `count > 0`, runs to its end without
waiting, and the values returned by the gets are, in order, the first values
passed to the puts: the `k`-th get returns the `k`-th value put, whatever the
number of values that pass through; what was put and not yet returned is the
buffer's contents. -/
theorem fifo_order (b0 : CircularBuffer) (ops : List Op) (h0 : b0.data.length = BUFFER_SIZE)
    (hnw : noWait BUFFER_SIZE ops (buffer_init b0) = true) :
    ∃ outs b, runOps BUFFER_SIZE ops (buffer_init b0) = some (outs, b) ∧
      outs.length = getsOf ops ∧ outs = (putsOf ops).take (getsOf ops) ∧
      (∀ k, k < getsOf ops → outs[k]? = (putsOf ops)[k]?) ∧
      putsOf ops = outs ++ contents BUFFER_SIZE b := by
  have hw := wf_init BUFFER_SIZE (by decide) b0 h0
  obtain ⟨outs, b, h1, _, h2, h3⟩ := runOps_spec BUFFER_SIZE ops _ hw hnw
  rw [contents_of_count_zero _ _ (by simp [buffer_init]), List.nil_append] at h3
  refine ⟨outs, b, h1, h2, ?_, ?_, h3⟩
  · rw [h3, ← h2, List.take_left]
  · intro k hk
    rw [h3, List.getElem?_append_left (by omega)]

theorem fifo_order_witness :
    (buffer0.data.length = BUFFER_SIZE ∧ noWait BUFFER_SIZE wrapOps (buffer_init buffer0) = true) ∧
    ∃ outs b, runOps BUFFER_SIZE wrapOps (buffer_init buffer0) = some (outs, b) ∧
      outs.length = getsOf wrapOps ∧ outs = (putsOf wrapOps).take (getsOf wrapOps) ∧
      (∀ k, k < getsOf wrapOps → outs[k]? = (putsOf wrapOps)[k]?) ∧
      putsOf wrapOps = outs ++ contents BUFFER_SIZE b :=
  ⟨⟨by decide, by decide!⟩, fifo_order buffer0 wrapOps (by decide) (by decide!)⟩

/-- The run of `wrapOps`, evaluated: the gets return `0, 1, ..., 149` and the
indices end at slot 50, having wrapped round once. -/
theorem fifo_wrap_example :
    runOps BUFFER_SIZE wrapOps (buffer_init buffer0) = some (wrapOuts, wrapFinal) := by
  decide!

theorem putAll_spec (N : ℕ) (samples : List CFloat) :
    ∀ (b : CircularBuffer), WF N b → b.count + samples.length ≤ N →
      ∃ b1, putAll N samples b = some b1 ∧ WF N b1 ∧
        contents N b1 = contents N b ++ samples ∧ b1.count = b.count + samples.length := by
  induction samples with
  | nil =>
    intro b hw _
    exact ⟨b, rfl, hw, by simp, by simp⟩
  | cons v vs ih =>
    intro b hw hlen
    simp only [List.length_cons, Nat.cast_add, Nat.cast_one] at hlen
    have hc : b.count ≠ N := by omega
    have hw1 := wf_put_body N b v hw hc
    obtain ⟨b1, h1, h2, h3, h4⟩ := ih (put_body N b v) hw1 (by simp only [put_body]; omega)
    refine ⟨b1, ?_, h2, ?_, ?_⟩
    · simp only [putAll, buffer_put_done N b v hc]
      exact h1
    · rw [h3, contents_put_body N b v hw hc]
      simp
    · rw [h4]
      simp only [put_body, List.length_cons, Nat.cast_add, Nat.cast_one]
      ring

theorem getMany_spec (N : ℕ) (running : Bool) (k : ℕ) :
    ∀ (b : CircularBuffer), WF N b → b.count = k →
      ∃ b2, getMany N running k b = some (contents N b, b2) ∧ WF N b2 ∧ b2.count = 0 := by
  induction k with
  | zero =>
    intro b hw hc
    exact ⟨b, by simp [getMany, contents_of_count_zero N b (by simpa using hc)], hw,
      by simpa using hc⟩
  | succ k ih =>
    intro b hw hc
    have hc0 : b.count ≠ 0 := by
      rw [hc]
      exact_mod_cast Nat.succ_ne_zero k
    have hw1 := wf_get_body N b hw hc0
    obtain ⟨b2, h1, h2, h3⟩ := ih (get_body N b).2 hw1 (by
      simp only [get_body, hc, Nat.cast_add, Nat.cast_one]
      ring)
    refine ⟨b2, ?_, h2, h3⟩
    simp only [getMany, buffer_get_body N running b hc0, h1, Option.map_some']
    rw [contents_get_body N b hw hc0]

theorem signal_handler_iterate (k : ℕ) (hk : 1 ≤ k) (g : Globals) :
    signal_handler^[k] g = { running := false, buffer := g.buffer } := by
  induction k with
  | zero => omega
  | succ k ih =>
    rw [Function.iterate_succ_apply']
    rcases Nat.eq_zero_or_pos k with h | h
    · subst h
      rfl
    · rw [ih h]
      rfl

theorem sensor_thread_puts_eq_filter (reads : List CFloat) :
    sensor_thread_puts reads = reads.filter fun t => decide (t ≠ FAIL_VALUE) := by
  induction reads with
  | nil => rfl
  | cons t rest ih =>
    by_cases h : t = FAIL_VALUE <;> simp [sensor_thread_puts, h, ih]

theorem sensor_thread_loop_spec (N : ℕ) (reads : List CFloat) :
    ∀ (b : CircularBuffer), WF N b → b.count + (sensor_thread_puts reads).length ≤ N →
      ∃ b', sensor_thread_loop N reads b = some b' ∧ WF N b' ∧
        contents N b' = contents N b ++ sensor_thread_puts reads := by
  induction reads with
  | nil =>
    intro b hw _
    exact ⟨b, rfl, hw, by simp [sensor_thread_puts]⟩
  | cons t rest ih =>
    intro b hw hlen
    by_cases ht : t = FAIL_VALUE
    · simp only [sensor_thread_puts, ht, ne_eq, not_true_eq_false, if_false] at hlen
      obtain ⟨b', h1, h2, h3⟩ := ih b hw hlen
      refine ⟨b', ?_, h2, ?_⟩
      · simpa [sensor_thread_loop, ht] using h1
      · simpa [sensor_thread_puts, ht] using h3
    · simp only [sensor_thread_puts, ne_eq, ht, not_false_eq_true, if_true, List.length_cons,
        Nat.cast_add, Nat.cast_one] at hlen
      have hc : b.count ≠ N := by omega
      obtain ⟨b', h1, h2, h3⟩ := ih _ (wf_put_body N b t hw hc) (by
        simp only [put_body]
        omega)
      refine ⟨b', ?_, h2, ?_⟩
      · simp only [sensor_thread_loop, ne_eq, ht, not_false_eq_true, if_true,
          buffer_put_done N b t hc]
        exact h1
      · rw [h3, contents_put_body N b t hw hc]
        simp [sensor_thread_puts, ht]

/-! ## C4: capacity invariant -/

/-- C4. Capacity invariant: in every buffer state reachable from `buffer_init`
by completed puts and completed gets (in either running state),
`0 <= count <= BUFFER_SIZE`, and `BUFFER_SIZE` is 100. -/
theorem capacity_invariant (b : CircularBuffer) (h : Reachable BUFFER_SIZE b) :
    0 ≤ b.count ∧ b.count ≤ (BUFFER_SIZE : ℤ) ∧ (BUFFER_SIZE : ℤ) = 100 := by
  obtain ⟨_, _, _, _, _, hc0, hcN, _⟩ := reachable_wf BUFFER_SIZE (by decide) b h
  exact ⟨hc0, hcN, rfl⟩

theorem capacity_invariant_witness :
    Reachable BUFFER_SIZE (put_body BUFFER_SIZE (buffer_init buffer0) 22) ∧
    (0 ≤ (put_body BUFFER_SIZE (buffer_init buffer0) 22).count ∧
      (put_body BUFFER_SIZE (buffer_init buffer0) 22).count ≤ (BUFFER_SIZE : ℤ) ∧
      (BUFFER_SIZE : ℤ) = 100) :=
  ⟨Reachable.put _ _ 22 (Reachable.init buffer0 (by decide)) (by decide!),
   capacity_invariant _
     (Reachable.put _ _ 22 (Reachable.init buffer0 (by decide)) (by decide!))⟩

/-! ## C10: index invariant -/

/-- C10. Index invariant: in every reachable buffer state `0 <= head < BUFFER_SIZE`,
`0 <= tail < BUFFER_SIZE` and `head == (tail + count) % BUFFER_SIZE`; the slots
`data[head]` and `data[tail]` are inside the array; and a put that completes
writes a slot that holds no buffered sample, so the buffered samples are still
there after it, followed by the new one. -/
theorem index_invariant (b : CircularBuffer) (h : Reachable BUFFER_SIZE b) :
    (0 ≤ b.head ∧ b.head < (BUFFER_SIZE : ℤ)) ∧ (0 ≤ b.tail ∧ b.tail < (BUFFER_SIZE : ℤ)) ∧
      b.head = (b.tail + b.count).tmod (BUFFER_SIZE : ℤ) ∧
      b.head.toNat < b.data.length ∧ b.tail.toNat < b.data.length ∧
      ∀ (temp : CFloat) (b' : CircularBuffer), buffer_put BUFFER_SIZE b temp = .done b' →
        (∀ i, i < b.count.toNat → b.head.toNat ≠ (b.tail.toNat + i) % BUFFER_SIZE) ∧
        (∀ i, i < b.count.toNat →
          b'.data.getD ((b.tail.toNat + i) % BUFFER_SIZE) 0 =
            b.data.getD ((b.tail.toNat + i) % BUFFER_SIZE) 0) ∧
        contents BUFFER_SIZE b' = contents BUFFER_SIZE b ++ [temp] := by
  have hw := reachable_wf BUFFER_SIZE (by decide) b h
  obtain ⟨hl, hh0, hhN, ht0, htN, hc0, hcN, hrel⟩ := hw
  refine ⟨⟨hh0, hhN⟩, ⟨ht0, htN⟩, hrel, by omega, by omega, ?_⟩
  intro temp b' hp
  rw [buffer_put_done_iff] at hp
  obtain ⟨hc, rfl⟩ := hp
  have hne : ∀ i, i < b.count.toNat → b.head.toNat ≠ (b.tail.toNat + i) % BUFFER_SIZE := by
    intro i hi
    have e : b.head.toNat = (b.tail.toNat + b.count.toNat) % BUFFER_SIZE := by
      rw [Int.tmod_eq_emod (by omega) (by omega)] at hrel
      have h1 : (b.head.toNat : ℤ) = (((b.tail.toNat + b.count.toNat) % BUFFER_SIZE : ℕ) : ℤ) := by
        push_cast
        rw [Int.toNat_of_nonneg hh0, Int.toNat_of_nonneg ht0, Int.toNat_of_nonneg hc0]
        exact hrel
      exact_mod_cast h1
    rw [e]
    exact mod_index_ne BUFFER_SIZE _ _ i hi (by omega)
  refine ⟨hne, ?_, contents_put_body BUFFER_SIZE b temp ⟨hl, hh0, hhN, ht0, htN, hc0, hcN, hrel⟩ hc⟩
  intro i hi
  simp only [put_body]
  rw [List.getD_eq_getElem?_getD, List.getD_eq_getElem?_getD, List.getElem?_set_ne (hne i hi)]

theorem index_invariant_witness :
    Reachable BUFFER_SIZE shutdownFilled ∧
    ((0 ≤ shutdownFilled.head ∧ shutdownFilled.head < (BUFFER_SIZE : ℤ)) ∧
      (0 ≤ shutdownFilled.tail ∧ shutdownFilled.tail < (BUFFER_SIZE : ℤ)) ∧
      shutdownFilled.head = (shutdownFilled.tail + shutdownFilled.count).tmod (BUFFER_SIZE : ℤ) ∧
      shutdownFilled.head.toNat < shutdownFilled.data.length ∧
      shutdownFilled.tail.toNat < shutdownFilled.data.length ∧
      ∀ (temp : CFloat) (b' : CircularBuffer),
        buffer_put BUFFER_SIZE shutdownFilled temp = .done b' →
        (∀ i, i < shutdownFilled.count.toNat →
          shutdownFilled.head.toNat ≠ (shutdownFilled.tail.toNat + i) % BUFFER_SIZE) ∧
        (∀ i, i < shutdownFilled.count.toNat →
          b'.data.getD ((shutdownFilled.tail.toNat + i) % BUFFER_SIZE) 0 =
            shutdownFilled.data.getD ((shutdownFilled.tail.toNat + i) % BUFFER_SIZE) 0) ∧
        contents BUFFER_SIZE b' = contents BUFFER_SIZE shutdownFilled ++ [temp]) :=
  ⟨reachable_runOps BUFFER_SIZE [Op.put 21.5, Op.put 21.7] _ [] shutdownFilled
      (Reachable.init buffer0 (by decide)) (by decide!),
   index_invariant shutdownFilled
     (reachable_runOps BUFFER_SIZE [Op.put 21.5, Op.put 21.7] _ [] shutdownFilled
       (Reachable.init buffer0 (by decide)) (by decide!))⟩

/-! ## C2: no loss and no double delivery on shutdown -/

/-- C2, as amended.  For every list of `M <= BUFFER_SIZE` samples, none of them
equal to `-999.0`, enqueued with `buffer_put` into a reachable empty buffer: if
the termination trigger then runs one or more times, the buffer is unchanged by
it, the next `M` calls of `buffer_get` return exactly those samples in order,
none of which the logger's test `temperature == -999.0` takes for the closed
result, and the call after them returns the closed result `-999.0` and leaves
the buffer as it is. -/
theorem no_loss_on_shutdown (b : CircularBuffer) (samples : List CFloat) (k : ℕ)
    (hb : Reachable BUFFER_SIZE b) (he : b.count = 0) (hM : samples.length ≤ BUFFER_SIZE)
    (hv : ∀ v ∈ samples, v ≠ FAIL_VALUE) (hk : 1 ≤ k) :
    ∃ b1, putAll BUFFER_SIZE samples b = some b1 ∧
      signal_handler^[k] { running := true, buffer := b1 } = { running := false, buffer := b1 } ∧
      ∃ b2, getMany BUFFER_SIZE false samples.length b1 = some (samples, b2) ∧
        (∀ v ∈ samples, logger_sees_closed v = false) ∧
        buffer_get BUFFER_SIZE false b2 = .returned FAIL_VALUE b2 ∧
        logger_sees_closed FAIL_VALUE = true := by
  have hw := reachable_wf BUFFER_SIZE (by decide) b hb
  obtain ⟨b1, h1, hw1, hc1, hn1⟩ := putAll_spec BUFFER_SIZE samples b hw (by
    rw [he]
    simp only [zero_add]
    exact_mod_cast hM)
  rw [contents_of_count_zero _ _ he, List.nil_append] at hc1
  rw [he, zero_add] at hn1
  obtain ⟨b2, h2, _, hc2⟩ := getMany_spec BUFFER_SIZE false samples.length b1 hw1 hn1
  rw [hc1] at h2
  refine ⟨b1, h1, signal_handler_iterate k hk _, b2, h2, ?_, buffer_get_closed _ b2 hc2, ?_⟩
  · intro v hvm
    simpa [logger_sees_closed] using hv v hvm
  · simp [logger_sees_closed]

theorem no_loss_on_shutdown_witness :
    (Reachable BUFFER_SIZE (buffer_init buffer0) ∧ (buffer_init buffer0).count = 0 ∧
      shutdownSamples.length ≤ BUFFER_SIZE ∧ (∀ v ∈ shutdownSamples, v ≠ FAIL_VALUE) ∧ 1 ≤ 1) ∧
    ∃ b1, putAll BUFFER_SIZE shutdownSamples (buffer_init buffer0) = some b1 ∧
      signal_handler^[1] { running := true, buffer := b1 } = { running := false, buffer := b1 } ∧
      ∃ b2, getMany BUFFER_SIZE false shutdownSamples.length b1 = some (shutdownSamples, b2) ∧
        (∀ v ∈ shutdownSamples, logger_sees_closed v = false) ∧
        buffer_get BUFFER_SIZE false b2 = .returned FAIL_VALUE b2 ∧
        logger_sees_closed FAIL_VALUE = true :=
  ⟨⟨Reachable.init buffer0 (by decide), by decide, by decide, by decide!, by decide⟩,
   no_loss_on_shutdown (buffer_init buffer0) shutdownSamples 1
    (Reachable.init buffer0 (by decide)) (by decide) (by decide) (by decide!) (by decide)⟩

/-- The shutdown scenario of C2, step by step: put `21.5`, put `21.7`, trigger;
then `get() = 21.5`, `get() = 21.7`, and the third get returns `-999.0`. -/
theorem shutdown_scenario :
    putAll BUFFER_SIZE [21.5, 21.7] (buffer_init buffer0) = some shutdownFilled ∧
    signal_handler { running := true, buffer := shutdownFilled }
      = { running := false, buffer := shutdownFilled } ∧
    getMany BUFFER_SIZE false 2 shutdownFilled = some ([21.5, 21.7], shutdownDrained) ∧
    buffer_get BUFFER_SIZE false shutdownDrained = .returned FAIL_VALUE shutdownDrained := by
  decide!

/-- C2 as stated fails when a sample equal to `-999.0` is enqueued: after the put
and the trigger, the first get returns the sample `-999.0`, the second get
returns the closed result `-999.0`: the same value, which the logger takes for
the closed result both times; of the one sample enqueued, none comes back as a
result that is not the closed one. -/
theorem no_loss_on_shutdown_counterexample :
    putAll BUFFER_SIZE [FAIL_VALUE] (buffer_init buffer0) = some sentinelFilled ∧
    signal_handler { running := true, buffer := sentinelFilled }
      = { running := false, buffer := sentinelFilled } ∧
    buffer_get BUFFER_SIZE false sentinelFilled = .returned FAIL_VALUE sentinelDrained ∧
    buffer_get BUFFER_SIZE false sentinelDrained = .returned FAIL_VALUE sentinelDrained ∧
    logger_sees_closed FAIL_VALUE = true := by
  decide!

/-! ## C7: the sampler never enqueues a failed read -/

/-- C7. For every finite sequence of read results seen by the loop of
`sensor_thread`, a failed read being the value `-999.0`, the values passed to
`buffer_put` are exactly the successful ones, one per successful read and in
the same order; nothing is enqueued for a failed read; and run on a reachable
buffer with room for them, the loop completes and the buffer's contents have
grown by exactly those values. -/
theorem sampler_skips_failed_reads (reads : List CFloat) :
    sensor_thread_puts reads = reads.filter (fun t => decide (t ≠ FAIL_VALUE)) ∧
    (sensor_thread_puts reads).length = reads.countP (fun t => decide (t ≠ FAIL_VALUE)) ∧
    List.Sublist (sensor_thread_puts reads) reads ∧
    FAIL_VALUE ∉ sensor_thread_puts reads ∧
    ∀ b, Reachable BUFFER_SIZE b →
      b.count + (sensor_thread_puts reads).length ≤ (BUFFER_SIZE : ℤ) →
      ∃ b', sensor_thread_loop BUFFER_SIZE reads b = some b' ∧
        contents BUFFER_SIZE b' = contents BUFFER_SIZE b ++ sensor_thread_puts reads := by
  have e := sensor_thread_puts_eq_filter reads
  refine ⟨e, ?_, ?_, ?_, ?_⟩
  · rw [e, List.countP_eq_length_filter]
  · rw [e]
    exact List.filter_sublist reads
  · rw [e]
    simp
  · intro b hb hroom
    obtain ⟨b', h1, _, h3⟩ := sensor_thread_loop_spec BUFFER_SIZE reads b
      (reachable_wf BUFFER_SIZE (by decide) b hb) hroom
    exact ⟨b', h1, h3⟩

/-- The scenario of C7: the read fails three times, then gives `22.0`; exactly
one sample, `22.0`, is enqueued. -/
theorem sampler_skips_failed_reads_witness :
    sensor_thread_puts [FAIL_VALUE, FAIL_VALUE, FAIL_VALUE, 22] = [22] ∧
    sensor_thread_loop BUFFER_SIZE [FAIL_VALUE, FAIL_VALUE, FAIL_VALUE, 22] (buffer_init buffer0)
      = some (put_body BUFFER_SIZE (buffer_init buffer0) 22) ∧
    contents BUFFER_SIZE (put_body BUFFER_SIZE (buffer_init buffer0) 22) = [22] :=
  ⟨(sampler_skips_failed_reads [FAIL_VALUE, FAIL_VALUE, FAIL_VALUE, 22]).1.trans (by decide),
   by decide!, by decide!⟩

/-! ## C3: the closed result and the samples -/

/-- C3, as amended.  When `v` is the oldest sample of a reachable buffer,
`buffer_get` returns `v` itself, and on an empty buffer after the trigger it
returns `-999.0`; the two results differ, and the logger's test
`temperature == -999.0` tells them apart, exactly when `v` is not `-999.0`.
That is the case of every value `sensor_thread` passes to `buffer_put`. -/
theorem closed_result_distinguished (b e : CircularBuffer) (v : CFloat) (running : Bool)
    (hb : Reachable BUFFER_SIZE b) (hv : (contents BUFFER_SIZE b).head? = some v)
    (he : e.count = 0) :
    ∃ b', buffer_get BUFFER_SIZE running b = .returned v b' ∧
      buffer_get BUFFER_SIZE false e = .returned FAIL_VALUE e ∧
      (logger_sees_closed v = false ↔ v ≠ FAIL_VALUE) ∧
      (v ≠ FAIL_VALUE → GetOutcome.returned v b' ≠ GetOutcome.returned FAIL_VALUE e) ∧
      ∀ reads, v ∈ sensor_thread_puts reads → logger_sees_closed v = false := by
  have hw := reachable_wf BUFFER_SIZE (by decide) b hb
  have hc : b.count ≠ 0 := by
    intro h0
    rw [contents_of_count_zero _ _ h0] at hv
    simp at hv
  have e1 : (get_body BUFFER_SIZE b).1 = v := by
    rw [contents_get_body BUFFER_SIZE b hw hc] at hv
    simpa using hv
  refine ⟨(get_body BUFFER_SIZE b).2, ?_, buffer_get_closed _ e he, ?_, ?_, ?_⟩
  · rw [buffer_get_body BUFFER_SIZE running b hc, e1]
  · simp [logger_sees_closed]
  · intro hne h
    injection h with h1 _
    exact hne h1
  · intro reads hm
    rw [sensor_thread_puts_eq_filter] at hm
    simp only [List.mem_filter, decide_eq_true_eq] at hm
    simpa [logger_sees_closed] using hm.2

theorem closed_result_distinguished_witness :
    (Reachable BUFFER_SIZE shutdownFilled ∧
      (contents BUFFER_SIZE shutdownFilled).head? = some 21.5 ∧ shutdownDrained.count = 0) ∧
    ∃ b', buffer_get BUFFER_SIZE true shutdownFilled = .returned 21.5 b' ∧
      buffer_get BUFFER_SIZE false shutdownDrained = .returned FAIL_VALUE shutdownDrained ∧
      (logger_sees_closed 21.5 = false ↔ (21.5 : CFloat) ≠ FAIL_VALUE) ∧
      ((21.5 : CFloat) ≠ FAIL_VALUE →
        GetOutcome.returned 21.5 b' ≠ GetOutcome.returned FAIL_VALUE shutdownDrained) ∧
      ∀ reads, (21.5 : CFloat) ∈ sensor_thread_puts reads → logger_sees_closed 21.5 = false :=
  ⟨⟨reachable_runOps BUFFER_SIZE [Op.put 21.5, Op.put 21.7] _ [] shutdownFilled
      (Reachable.init buffer0 (by decide)) (by decide!), by decide!, by decide⟩,
   closed_result_distinguished shutdownFilled shutdownDrained 21.5 true
    (reachable_runOps BUFFER_SIZE [Op.put 21.5, Op.put 21.7] _ [] shutdownFilled
      (Reachable.init buffer0 (by decide)) (by decide!)) (by decide!) (by decide)⟩

/-- C3 as stated fails for the sample `-999.0`: `buffer_put` accepts it, it is the
oldest (and only) buffered sample of a reachable buffer, and `buffer_get`
returns for it the very value it returns on the empty buffer after the trigger;
the logger's test takes it for the closed result. -/
theorem closed_result_distinguished_counterexample :
    buffer_put BUFFER_SIZE (buffer_init buffer0) FAIL_VALUE = .done sentinelFilled ∧
    (contents BUFFER_SIZE sentinelFilled).head? = some FAIL_VALUE ∧
    buffer_get BUFFER_SIZE true sentinelFilled = .returned FAIL_VALUE sentinelDrained ∧
    buffer_get BUFFER_SIZE false (buffer_init buffer0)
      = .returned FAIL_VALUE (buffer_init buffer0) ∧
    logger_sees_closed FAIL_VALUE = true := by
  decide!

/-! ## Rounding lemmas -/

theorem roundNearestEven_err (x : ℚ) : |(roundNearestEven x : ℚ) - x| ≤ 1 / 2 := by
  have h1 := Int.floor_le x
  have h2 := Int.lt_floor_add_one x
  unfold roundNearestEven
  rw [abs_le]
  split_ifs with a b c
  · constructor <;> linarith
  · push_cast; constructor <;> linarith
  · constructor <;> linarith
  · push_cast; constructor <;> linarith

theorem roundNearestEven_intCast (z : ℤ) : roundNearestEven (z : ℚ) = z := by
  simp [roundNearestEven]

theorem roundBinary_err (p : ℕ) (q : ℚ) :
    |roundBinary p q - q| ≤ |q| * (2 : ℚ) ^ (-(p : ℤ)) := by
  unfold roundBinary
  split_ifs with h0
  · simp [h0]
  · set e : ℤ := Int.log 2 |q| with he
    have hu : (0 : ℚ) < 2 ^ (e - p + 1) := by positivity
    have hq : (0 : ℚ) < |q| := abs_pos.mpr h0
    have hle : ((2 : ℕ) : ℚ) ^ e ≤ |q| := Int.zpow_log_le_self (by norm_num) hq
    have hr := roundNearestEven_err (q / 2 ^ (e - p + 1))
    have e1 : (roundNearestEven (q / 2 ^ (e - p + 1)) : ℚ) * 2 ^ (e - p + 1) - q
        = ((roundNearestEven (q / 2 ^ (e - p + 1)) : ℚ) - q / 2 ^ (e - p + 1))
          * 2 ^ (e - p + 1) := by
      field_simp
    rw [e1, abs_mul, abs_of_pos hu]
    have e2 : (2 : ℚ) ^ (e - p + 1) = 2 ^ e * 2 ^ (-(p : ℤ)) * 2 := by
      rw [show e - (p : ℤ) + 1 = e + (-(p : ℤ)) + 1 by ring, zpow_add₀ (by norm_num),
        zpow_add₀ (by norm_num)]
      simp
    have hp : (0 : ℚ) < 2 ^ (-(p : ℤ)) := by positivity
    have h2e : (0 : ℚ) < 2 ^ e := by positivity
    calc |(roundNearestEven (q / 2 ^ (e - p + 1)) : ℚ) - q / 2 ^ (e - p + 1)| * 2 ^ (e - p + 1)
        ≤ 1 / 2 * 2 ^ (e - p + 1) := mul_le_mul_of_nonneg_right hr hu.le
      _ = 2 ^ e * 2 ^ (-(p : ℤ)) := by rw [e2]; ring
      _ ≤ |q| * 2 ^ (-(p : ℤ)) := by
          apply mul_le_mul_of_nonneg_right _ hp.le
          simpa using hle

theorem float_of_double_eq_fail (q : ℚ) (h : to_float (to_double q) = FAIL_VALUE) :
    |q + 999| < 1 / 1000 := by
  have h1 := roundBinary_err 53 q
  have h2 := roundBinary_err 24 (roundBinary 53 q)
  unfold to_float to_double at h
  rw [h] at h2
  unfold FAIL_VALUE at h2
  have c1 : (2 : ℚ) ^ (-((53 : ℕ) : ℤ)) = 1 / 9007199254740992 := by norm_num [zpow_neg]
  have c2 : (2 : ℚ) ^ (-((24 : ℕ) : ℤ)) = 1 / 16777216 := by norm_num [zpow_neg]
  rw [c1] at h1
  rw [c2] at h2
  rw [abs_le] at h1 h2
  rw [abs_lt]
  obtain ⟨h1a, h1b⟩ := h1
  obtain ⟨h2a, h2b⟩ := h2
  rcases abs_cases q with ⟨hq, _⟩ | ⟨hq, _⟩ <;>
    rcases abs_cases (roundBinary 53 q) with ⟨hd, _⟩ | ⟨hd, _⟩ <;>
    rw [hq] at h1a h1b <;> rw [hd] at h2a h2b <;> constructor <;> linarith

theorem log_two_999 : Int.log 2 (999 : ℚ) = 9 := by
  have h := Int.log_natCast (R := ℚ) 2 999
  have h9 : Nat.log 2 999 = 9 := by
    rw [Nat.log_eq_iff (by norm_num)]
    norm_num
  rw [h9] at h
  exact_mod_cast h

theorem to_double_fail : to_double (-999) = -999 := by
  unfold to_double roundBinary
  rw [if_neg (by norm_num), abs_neg, abs_of_pos (by norm_num : (0 : ℚ) < 999), log_two_999]
  have e : (-999 : ℚ) / 2 ^ ((9 : ℤ) - ((53 : ℕ) : ℤ) + 1) = ((-999 * 2 ^ 43 : ℤ) : ℚ) := by
    norm_num [zpow_neg]
  rw [e, roundNearestEven_intCast]
  norm_num [zpow_neg]

theorem to_float_fail : to_float (-999) = -999 := by
  unfold to_float roundBinary
  rw [if_neg (by norm_num), abs_neg, abs_of_pos (by norm_num : (0 : ℚ) < 999), log_two_999]
  have e : (-999 : ℚ) / 2 ^ ((9 : ℤ) - ((24 : ℕ) : ℤ) + 1) = ((-999 * 2 ^ 14 : ℤ) : ℚ) := by
    norm_num [zpow_neg]
  rw [e, roundNearestEven_intCast]
  norm_num [zpow_neg]

theorem reading_eq_fail_iff (n : ℤ) :
    to_float (to_double ((n : ℚ) / 1000)) = FAIL_VALUE ↔ n = -999000 := by
  constructor
  · intro h
    have h1 := float_of_double_eq_fail _ h
    rw [abs_lt] at h1
    obtain ⟨ha, hb⟩ := h1
    have h3 : (-999001 : ℚ) < (n : ℚ) := by linarith
    have h4 : (n : ℚ) < (-998999 : ℚ) := by linarith
    have h5 : (-999001 : ℤ) < n := by exact_mod_cast h3
    have h6 : n < (-998999 : ℤ) := by exact_mod_cast h4
    omega
  · rintro rfl
    have e : (((-999000 : ℤ) : ℚ) / 1000) = -999 := by norm_num
    rw [e, to_double_fail, to_float_fail]
    rfl

/-! ## C8: when `read_temperature` reports a failure -/

theorem atoi_range (s : List Char) : -2147483648 ≤ atoi s ∧ atoi s ≤ 2147483647 := by
  have h : ∀ z : ℤ, -2147483648 ≤ long_to_int z ∧ long_to_int z ≤ 2147483647 := by
    intro z
    unfold long_to_int
    omega
  unfold atoi
  split
  · omega
  · split_ifs <;> exact h _

theorem read_temperature_parsed (stream l1 rest l2 rest2 y pos : List Char)
    (h1 : fgets 256 stream = some (l1, rest)) (hy : strstr (c_string l1) YES = some y)
    (h2 : fgets 256 rest = some (l2, rest2)) (ht : strstr (c_string l2) T_EQ = some pos) :
    read_temperature (some stream)
      = to_float (to_double ((atoi (pos.drop 2) : ℚ) / 1000)) := by
  simp only [read_temperature, h1, hy, h2, ht]

/-- C8, as amended.  `read_temperature` returns `-999.0` exactly when the file
cannot be opened, the first `fgets` finds the end of the file, the C string it
stored (what it read, up to the first NUL) does not contain `YES`, the second
`fgets` finds the end of the file, the C string it stored does not contain
`t=`, or the `int` that `atoi` returns for the text after `t=` is `-999000`.  In
every other case it returns the quotient of that `int` by 1000 rounded to
`double` and then to `float`, and the caller's test `temperature != -999.0`
accepts it. -/
theorem read_temperature_failure_iff (file : Option (List Char)) :
    (read_temperature file = FAIL_VALUE ↔
      file = none ∨ first_chunk file = none ∨
      (∃ l1, first_chunk file = some l1 ∧ strstr (c_string l1) YES = none) ∨
      second_chunk file = none ∨
      (∃ l2, second_chunk file = some l2 ∧ strstr (c_string l2) T_EQ = none) ∨
      (∃ l2 pos, second_chunk file = some l2 ∧ strstr (c_string l2) T_EQ = some pos ∧
        atoi (pos.drop 2) = -999000)) ∧
    (∀ l1 l2 pos, first_chunk file = some l1 → strstr (c_string l1) YES ≠ none →
      second_chunk file = some l2 → strstr (c_string l2) T_EQ = some pos →
      (-2147483648 ≤ atoi (pos.drop 2) ∧ atoi (pos.drop 2) ≤ 2147483647) ∧
      read_temperature file = to_float (to_double ((atoi (pos.drop 2) : ℚ) / 1000)) ∧
      (atoi (pos.drop 2) ≠ -999000 → caller_accepts (read_temperature file) = true)) := by
  cases file with
  | none => simp [read_temperature, first_chunk, second_chunk]
  | some stream =>
    cases h1 : fgets 256 stream with
    | none => simp [read_temperature, first_chunk, second_chunk, h1]
    | some r1 =>
      obtain ⟨l1, rest⟩ := r1
      cases hy : strstr (c_string l1) YES with
      | none =>
        refine ⟨by simp [read_temperature, first_chunk, second_chunk, h1, hy], ?_⟩
        intro l1' l2' pos' e1 hne _ _
        simp only [first_chunk, h1, Option.some_bind, Option.map_some',
          Option.some.injEq] at e1
        subst e1
        exact absurd hy hne
      | some y =>
        cases h2 : fgets 256 rest with
        | none => simp [read_temperature, first_chunk, second_chunk, h1, hy, h2]
        | some r2 =>
          obtain ⟨l2, rest2⟩ := r2
          cases ht : strstr (c_string l2) T_EQ with
          | none =>
            refine ⟨by simp [read_temperature, first_chunk, second_chunk, h1, hy, h2, ht], ?_⟩
            intro l1' l2' pos' _ _ e2 e3
            simp only [second_chunk, h1, h2, Option.some_bind, Option.map_some',
              Option.some.injEq] at e2
            subst e2
            rw [ht] at e3
            exact absurd e3 (by simp)
          | some pos =>
            have hv := read_temperature_parsed stream l1 rest l2 rest2 y pos h1 hy h2 ht
            have hiff := reading_eq_fail_iff (atoi (pos.drop 2))
            constructor
            · rw [hv, hiff]
              simp [first_chunk, second_chunk, h1, hy, h2, ht]
            · intro l1' l2' pos' e1 _ e2 e3
              simp only [first_chunk, second_chunk, h1, h2, Option.some_bind, Option.map_some',
                Option.some.injEq] at e1 e2
              subst e1 e2
              rw [ht] at e3
              simp only [Option.some.injEq] at e3
              subst e3
              refine ⟨atoi_range _, hv, ?_⟩
              intro hne
              rw [hv]
              simp only [caller_accepts, bne_iff_ne, ne_eq]
              rw [hiff]
              exact hne

/-- The sensor file of a DS18B20 reading 21.5 degrees is read successfully. -/
theorem read_temperature_failure_iff_witness :
    read_temperature goodFile = to_float (to_double (((21500 : ℤ) : ℚ) / 1000)) ∧
    caller_accepts (read_temperature goodFile) = true :=
  have h := (read_temperature_failure_iff goodFile).2
    "72 01 4b 46 7f ff 0e 10 57 : crc=57 YES\n".toList
    "72 01 4b 46 7f ff 0e 10 57 t=21500\n".toList "t=21500\n".toList
    (by decide) (by decide) (by decide) (by decide)
  ⟨h.2.1, h.2.2 (by decide)⟩

/-- C8 as stated fails on a well-formed payload reading -999000 millidegrees: the
file opens, has two lines, the first contains `YES`, the second contains `t=`
followed by a decimal integer, and yet `read_temperature` returns the failure
value, which the caller's test rejects. -/
theorem read_temperature_counterexample :
    collidingFile ≠ none ∧
    first_chunk collidingFile = some "00 00 00 00 00 00 00 00 00 : crc=00 YES\n".toList ∧
    strstr (c_string "00 00 00 00 00 00 00 00 00 : crc=00 YES\n".toList) YES
      = some "YES\n".toList ∧
    second_chunk collidingFile = some "00 00 00 00 00 00 00 00 00 t=-999000\n".toList ∧
    strstr (c_string "00 00 00 00 00 00 00 00 00 t=-999000\n".toList) T_EQ
      = some "t=-999000\n".toList ∧
    atoi ("t=-999000\n".toList.drop 2) = -999000 ∧
    read_temperature collidingFile = FAIL_VALUE ∧
    caller_accepts (read_temperature collidingFile) = false := by
  have hv : read_temperature collidingFile = FAIL_VALUE := by
    have h := read_temperature_parsed
      "00 00 00 00 00 00 00 00 00 : crc=00 YES\n00 00 00 00 00 00 00 00 00 t=-999000\n".toList
      "00 00 00 00 00 00 00 00 00 : crc=00 YES\n".toList
      "00 00 00 00 00 00 00 00 00 t=-999000\n".toList
      "00 00 00 00 00 00 00 00 00 t=-999000\n".toList [] "YES\n".toList "t=-999000\n".toList
      (by decide) (by decide) (by decide) (by decide)
    have e : atoi ("t=-999000\n".toList.drop 2) = -999000 := by decide
    rw [e] at h
    exact h.trans ((reading_eq_fail_iff (-999000)).mpr rfl)
  refine ⟨by decide, by decide, by decide, by decide, by decide, by decide, hv, ?_⟩
  rw [hv]
  decide

/-- Digits after `t=` that do not fit an `int` wrap round in `atoi`: for
`t=4293968296` the `int` is `-999000`, and `read_temperature` returns the failure
value. -/
theorem read_temperature_wrapping_example :
    second_chunk wrappingFile = some "t=4293968296\n".toList ∧
    atoi ("t=4293968296\n".toList.drop 2) = -999000 ∧
    read_temperature wrappingFile = FAIL_VALUE := by
  have h := read_temperature_parsed "YES\nt=4293968296\n".toList "YES\n".toList
    "t=4293968296\n".toList "t=4293968296\n".toList [] "YES\n".toList "t=4293968296\n".toList
    (by decide) (by decide) (by decide) (by decide)
  have e : atoi ("t=4293968296\n".toList.drop 2) = -999000 := by decide
  rw [e] at h
  exact ⟨by decide, e, h.trans ((reading_eq_fail_iff (-999000)).mpr rfl)⟩

/-! ## The program as a whole: invariant -/

theorem inv_init (N : ℕ) (hN : 0 < N) (b0 : CircularBuffer) (h : b0.data.length = N) :
    Inv N (Sys.start b0) := by
  refine ⟨wf_init N hN b0 h, ?_, ?_, ?_, ?_, ?_, ?_, ?_, ?_⟩
  · simp [Sys.start, contents, buffer_init]
  · simp [Sys.start, sample_in_hand]
  · simp [Sys.start, contents, buffer_init]
  · simp [Sys.start]
  · simp [Sys.start]
  · simp [Sys.start]
  · simp [Sys.start, past_last_look]
  · simp [Sys.start]

theorem past_last_look_signal (pc : LoggerPc) :
    past_last_look (signal_not_empty pc) = past_last_look pc := by
  cases pc <;> simp [signal_not_empty, past_last_look]

theorem signal_not_empty_eq_done (pc : LoggerPc) : signal_not_empty pc = .done ↔ pc = .done := by
  cases pc <;> simp [signal_not_empty]

theorem signal_not_empty_eq_start (pc : LoggerPc) :
    signal_not_empty pc = .start ↔ pc = .start := by
  cases pc <;> simp [signal_not_empty]

theorem signal_not_empty_eq_get_if (pc : LoggerPc) :
    signal_not_empty pc = .get_if ↔ pc = .get_if := by
  cases pc <;> simp [signal_not_empty]

theorem sample_in_hand_signal (pc : SensorPc) :
    sample_in_hand (signal_not_full pc) = sample_in_hand pc := by
  cases pc <;> simp [signal_not_full, sample_in_hand]

theorem inv_trigger (N : ℕ) (s : Sys) (h : Inv N s) :
    Inv N { s with running := (signal_handler ⟨s.running, s.buffer⟩).running } := by
  obtain ⟨wf, ok, hand, hist, st, unop, lz, al, gi⟩ := h
  exact ⟨wf, ok, hand, hist, st, unop, lz, al, fun _ => Or.inr rfl⟩

theorem inv_sensor (N : ℕ) (reading : CFloat) (s s' : Sys) (h : Inv N s)
    (hs : sensor_step N reading s = some s') : Inv N s' := by
  obtain ⟨wf, ok, hand, hist, st, unop, lz, al, gi⟩ := h
  cases hpc : s.sensor with
  | loop =>
    simp only [sensor_step, hpc, Option.some.injEq] at hs
    subst hs
    refine ⟨wf, ok, ?_, hist, st, unop, lz, al, gi⟩
    intro t ht
    dsimp only at ht
    split at ht <;> simp [sample_in_hand] at ht
  | read =>
    simp only [sensor_step, hpc, Option.some.injEq] at hs
    subst hs
    refine ⟨wf, ok, ?_, hist, st, unop, lz, al, gi⟩
    intro t ht
    dsimp only at ht
    split at ht
    · simp only [sample_in_hand, Option.some.injEq] at ht
      subst ht
      assumption
    · simp [sample_in_hand] at ht
  | put_lock temp =>
    simp only [sensor_step, hpc] at hs
    split at hs
    · simp only [Option.some.injEq] at hs
      subst hs
      refine ⟨wf, ok, ?_, hist, st, unop, lz, al, gi⟩
      intro t ht
      exact hand t (by rw [hpc]; simpa [sample_in_hand] using ht)
    · exact absurd hs (by simp)
  | put_test temp =>
    have hne : temp ≠ FAIL_VALUE := hand temp (by rw [hpc]; rfl)
    simp only [sensor_step, hpc] at hs
    split at hs
    · -- the buffer is full
      simp only [Option.some.injEq] at hs
      subst hs
      refine ⟨wf, ok, ?_, hist, st, unop, lz, al, gi⟩
      intro t ht
      exact hand t (by rw [hpc]; simpa [sample_in_hand] using ht)
    · -- the put completes
      rename_i b hb
      rw [buffer_put_done_iff] at hb
      obtain ⟨hc, rfl⟩ := hb
      simp only [Option.some.injEq] at hs
      subst hs
      have hcont := contents_put_body N s.buffer temp wf hc
      refine ⟨wf_put_body N s.buffer temp wf hc, ?_, ?_, ?_, ?_, ?_, ?_, ?_, ?_⟩
      · intro v hv
        dsimp only at hv
        rw [hcont, List.mem_append, List.mem_singleton] at hv
        rcases hv with hv | rfl
        · exact ok v hv
        · exact hne
      · intro t ht
        simp [sample_in_hand] at ht
      · dsimp only
        rw [hcont, hist, List.append_assoc]
      · intro h1
        exact st ((signal_not_empty_eq_start _).mp h1)
      · intro h1
        obtain ⟨u1, u2⟩ := unop h1
        refine ⟨u1, ?_⟩
        rcases u2 with u2 | u2 <;> simp [u2, signal_not_empty]
      · intro h1
        dsimp only at h1 ⊢
        rw [past_last_look_signal] at h1
        rw [h1]
        simpa using lz h1
      · intro h1 h2
        dsimp only at h1 h2 ⊢
        rw [past_last_look_signal] at h1
        rw [h1]
        simp only [put_body, if_true, al h1 h2]
        push_cast
        ring
      · intro h1
        dsimp only at h1 ⊢
        rcases gi ((signal_not_empty_eq_get_if _).mp h1) with g | g
        · left
          obtain ⟨_, _, _, _, _, hc0, _, _⟩ := wf
          simp only [put_body]
          omega
        · exact Or.inr g
  | put_enter_wait temp =>
    simp only [sensor_step, hpc, Option.some.injEq] at hs
    subst hs
    refine ⟨wf, ok, ?_, hist, st, unop, lz, al, gi⟩
    intro t ht
    exact hand t (by rw [hpc]; simpa [sample_in_hand] using ht)
  | put_wait temp =>
    simp [sensor_step, hpc] at hs
  | put_woken temp =>
    simp only [sensor_step, hpc] at hs
    split at hs
    · simp only [Option.some.injEq] at hs
      subst hs
      refine ⟨wf, ok, ?_, hist, st, unop, lz, al, gi⟩
      intro t ht
      exact hand t (by rw [hpc]; simpa [sample_in_hand] using ht)
    · exact absurd hs (by simp)
  | sleep =>
    simp only [sensor_step, hpc, Option.some.injEq] at hs
    subst hs
    refine ⟨wf, ok, ?_, hist, st, unop, lz, al, gi⟩
    intro t ht
    simp [sample_in_hand] at ht
  | exit_signal =>
    simp only [sensor_step, hpc, Option.some.injEq] at hs
    subst hs
    refine ⟨wf, ok, ?_, hist, ?_, ?_, ?_, ?_, ?_⟩
    · intro t ht
      simp [sample_in_hand] at ht
    · intro h1
      exact st ((signal_not_empty_eq_start _).mp h1)
    · intro h1
      obtain ⟨u1, u2⟩ := unop h1
      refine ⟨u1, ?_⟩
      rcases u2 with u2 | u2 <;> simp [u2, signal_not_empty]
    · intro h1
      dsimp only at h1 ⊢
      rw [past_last_look_signal] at h1
      exact lz h1
    · intro h1 h2
      dsimp only at h1 h2 ⊢
      rw [past_last_look_signal] at h1
      exact al h1 h2
    · intro h1
      exact gi ((signal_not_empty_eq_get_if _).mp h1)
  | done =>
    simp [sensor_step, hpc] at hs

theorem opened_of_logger (s : Sys)
    (unop : s.opened = false → s.written = [] ∧ (s.logger = .start ∨ s.logger = .done))
    (h1 : s.logger ≠ .start) (h2 : s.logger ≠ .done) : s.opened = true := by
  cases ho : s.opened with
  | true => rfl
  | false =>
    rcases (unop ho).2 with h | h
    · exact absurd h h1
    · exact absurd h h2

theorem inv_logger (N : ℕ) (fopen_ok : Bool) (s s' : Sys) (h : Inv N s)
    (hs : logger_step N fopen_ok s = some s') : Inv N s' := by
  obtain ⟨wf, ok, hand, hist, st, unop, lz, al, gi⟩ := h
  cases hpc : s.logger with
  | start =>
    have hl0 : s.late = 0 := lz (by rw [hpc]; rfl)
    simp only [logger_step, hpc] at hs
    split at hs
    · simp only [Option.some.injEq] at hs
      subst hs
      exact ⟨wf, ok, hand, hist, by simp, by simp, fun _ => hl0, by simp [past_last_look],
        by simp⟩
    · simp only [Option.some.injEq] at hs
      subst hs
      have ho := st hpc
      exact ⟨wf, ok, hand, hist, by simp, fun _ => ⟨(unop ho).1, Or.inr rfl⟩,
        by simp [past_last_look], by simp [ho], by simp⟩
  | loop =>
    have hl0 : s.late = 0 := lz (by rw [hpc]; rfl)
    have hop := opened_of_logger s unop (by rw [hpc]; simp) (by rw [hpc]; simp)
    simp only [logger_step, hpc, Option.some.injEq] at hs
    subst hs
    refine ⟨wf, ok, hand, hist, ?_, by simp [hop], fun _ => hl0, ?_, ?_⟩
    · dsimp only
      split <;> simp
    · dsimp only
      split <;> simp [past_last_look]
    · dsimp only
      split <;> simp
  | loop_count =>
    have hl0 : s.late = 0 := lz (by rw [hpc]; rfl)
    have hop := opened_of_logger s unop (by rw [hpc]; simp) (by rw [hpc]; simp)
    simp only [logger_step, hpc, Option.some.injEq] at hs
    subst hs
    refine ⟨wf, ok, hand, hist, ?_, by simp [hop], fun _ => hl0, ?_, ?_⟩
    · dsimp only
      split <;> simp
    · intro h1 _
      dsimp only at h1 ⊢
      have hc : ¬ 0 < s.buffer.count := by
        intro hc
        rw [if_pos hc] at h1
        simp [past_last_look] at h1
      obtain ⟨_, _, _, _, _, hc0, _, _⟩ := wf
      rw [hl0]
      push_cast
      omega
    · dsimp only
      split <;> simp
  | get_lock =>
    have hl0 : s.late = 0 := lz (by rw [hpc]; rfl)
    have hop := opened_of_logger s unop (by rw [hpc]; simp) (by rw [hpc]; simp)
    simp only [logger_step, hpc] at hs
    split at hs
    · simp only [Option.some.injEq] at hs
      subst hs
      exact ⟨wf, ok, hand, hist, by simp, by simp [hop], fun _ => hl0, by simp [past_last_look],
        by simp⟩
    · exact absurd hs (by simp)
  | get_test =>
    have hl0 : s.late = 0 := lz (by rw [hpc]; rfl)
    have hop := opened_of_logger s unop (by rw [hpc]; simp) (by rw [hpc]; simp)
    simp only [logger_step, hpc, Option.some.injEq] at hs
    subst hs
    refine ⟨wf, ok, hand, hist, ?_, by simp [hop], fun _ => hl0, ?_, ?_⟩
    · dsimp only
      split <;> simp
    · dsimp only
      split <;> simp [past_last_look]
    · dsimp only
      intro h1
      by_cases hc : s.buffer.count = 0
      · cases hr : s.running with
        | false => exact Or.inr rfl
        | true => simp [hc, hr] at h1
      · exact Or.inl hc
  | get_enter_wait =>
    have hl0 : s.late = 0 := lz (by rw [hpc]; rfl)
    have hop := opened_of_logger s unop (by rw [hpc]; simp) (by rw [hpc]; simp)
    simp only [logger_step, hpc, Option.some.injEq] at hs
    subst hs
    exact ⟨wf, ok, hand, hist, by simp, by simp [hop], fun _ => hl0, by simp [past_last_look],
      by simp⟩
  | get_wait =>
    simp [logger_step, hpc] at hs
  | get_woken =>
    have hl0 : s.late = 0 := lz (by rw [hpc]; rfl)
    have hop := opened_of_logger s unop (by rw [hpc]; simp) (by rw [hpc]; simp)
    simp only [logger_step, hpc] at hs
    split at hs
    · simp only [Option.some.injEq] at hs
      subst hs
      exact ⟨wf, ok, hand, hist, by simp, by simp [hop], fun _ => hl0, by simp [past_last_look],
        by simp⟩
    · exact absurd hs (by simp)
  | get_if =>
    have hl0 : s.late = 0 := lz (by rw [hpc]; rfl)
    have hop := opened_of_logger s unop (by rw [hpc]; simp) (by rw [hpc]; simp)
    have hgi := gi hpc
    simp only [logger_step, hpc] at hs
    split at hs
    · -- the closed path
      rename_i hcl
      simp only [Option.some.injEq] at hs
      subst hs
      refine ⟨wf, ok, hand, hist, by simp, by simp [hop], by simp [past_last_look], ?_, by simp⟩
      intro _ _
      dsimp only
      rw [hcl.2, hl0]
      rfl
    · -- the body
      rename_i hcl
      have hc : s.buffer.count ≠ 0 := by
        rcases hgi with g | g
        · exact g
        · intro h0
          exact hcl ⟨g, h0⟩
      have hcont := contents_get_body N s.buffer wf hc
      have hv : (get_body N s.buffer).1 ≠ FAIL_VALUE :=
        ok _ (by rw [hcont]; exact List.mem_cons_self _ _)
      have hsee : logger_sees_closed (get_body N s.buffer).1 = false := by
        simpa [logger_sees_closed] using hv
      simp only [Option.some.injEq, hsee] at hs
      subst hs
      refine ⟨wf_get_body N s.buffer wf hc, ?_, ?_, ?_, by simp, by simp [hop],
        fun _ => hl0, by simp [past_last_look], by simp⟩
      · intro v hvm
        exact ok v (by rw [hcont]; exact List.mem_cons_of_mem _ hvm)
      · intro t ht
        dsimp only at ht
        rw [sample_in_hand_signal] at ht
        exact hand t ht
      · dsimp only
        rw [hist, hcont]
        simp
  | closing =>
    have hop := opened_of_logger s unop (by rw [hpc]; simp) (by rw [hpc]; simp)
    have hal := al (by rw [hpc]; rfl) hop
    simp only [logger_step, hpc, Option.some.injEq] at hs
    subst hs
    exact ⟨wf, ok, hand, hist, by simp, by simp [hop], by simp [past_last_look],
      fun _ _ => hal, by simp⟩
  | done =>
    simp [logger_step, hpc] at hs

theorem inv_step (N : ℕ) (a : Action) (s s' : Sys) (h : Inv N s)
    (hs : step N a s = some s') : Inv N s' := by
  cases a with
  | trigger =>
    simp only [step, Option.some.injEq] at hs
    subst hs
    exact inv_trigger N s h
  | sensor reading => exact inv_sensor N reading s s' h hs
  | logger fopen_ok => exact inv_logger N fopen_ok s s' h hs

theorem inv_reachable (N : ℕ) (hN : 0 < N) (s : Sys) (h : SysReachable N s) : Inv N s := by
  induction h with
  | init b0 h0 => exact inv_init N hN b0 h0
  | step a s s' _ hs ih => exact inv_step N a s s' ih hs

theorem reachable_run (N : ℕ) (acts : List Action) :
    ∀ s s', SysReachable N s → run N acts s = some s' → SysReachable N s' := by
  induction acts with
  | nil =>
    intro s s' hr h
    simp only [run, Option.some.injEq] at h
    subst h
    exact hr
  | cons a acts ih =>
    intro s s' hr h
    simp only [run] at h
    cases hst : step N a s with
    | none => simp [hst] at h
    | some s1 =>
      rw [hst] at h
      exact ih s1 s' (SysReachable.step a s s1 hr hst) h

theorem blocked_forever (N : ℕ) (acts : List Action) :
    ∀ s s', s.logger = .get_wait → s.sensor = .done → run N acts s = some s' →
      s'.logger = .get_wait ∧ s'.sensor = .done := by
  induction acts with
  | nil =>
    intro s s' h1 h2 h
    simp only [run, Option.some.injEq] at h
    subst h
    exact ⟨h1, h2⟩
  | cons a acts ih =>
    intro s s' h1 h2 h
    cases a with
    | trigger =>
      simp only [run, step, Option.some_bind] at h
      refine ih _ s' ?_ ?_ h
      · exact h1
      · exact h2
    | sensor reading =>
      simp [run, step, sensor_step, h2] at h
    | logger fopen_ok =>
      simp [run, step, logger_step, h1] at h

/-! ## The locking discipline -/

theorem logger_holds_signal (pc : LoggerPc) :
    logger_holds (signal_not_empty pc) = logger_holds pc := by
  cases pc <;> simp [signal_not_empty, logger_holds]

theorem sensor_holds_signal (pc : SensorPc) :
    sensor_holds (signal_not_full pc) = sensor_holds pc := by
  cases pc <;> simp [signal_not_full, sensor_holds]

theorem sensor_waits_signal (pc : SensorPc) (h : sensor_waits (signal_not_full pc) = true) :
    sensor_holds pc = true := by
  cases pc <;> simp [signal_not_full, sensor_waits, sensor_holds] at h ⊢

theorem signal_not_empty_ne_get_wait (pc : LoggerPc) : signal_not_empty pc ≠ .get_wait := by
  cases pc <;> simp [signal_not_empty]

theorem signal_not_empty_eq_enter_wait (pc : LoggerPc) :
    signal_not_empty pc = .get_enter_wait ↔ pc = .get_enter_wait := by
  cases pc <;> simp [signal_not_empty]

theorem signal_not_full_eq_exit (pc : SensorPc) :
    (signal_not_full pc = .exit_signal ∨ signal_not_full pc = .done) ↔
      (pc = .exit_signal ∨ pc = .done) := by
  cases pc <;> simp [signal_not_full]

theorem buffer_put_waits_iff (N : ℕ) (b : CircularBuffer) (temp : CFloat) :
    buffer_put N b temp = .waits ↔ b.count = N := by
  unfold buffer_put
  split <;> simp_all

theorem mutexInv_init (N : ℕ) (b0 : CircularBuffer) : MutexInv N (Sys.start b0) := by
  refine ⟨?_, ?_, ?_, ?_, ?_⟩ <;> simp [Sys.start, sensor_holds, logger_holds, sensor_waits]

theorem mutexInv_sensor (N : ℕ) (reading : CFloat) (s s' : Sys) (h : MutexInv N s)
    (hs : sensor_step N reading s = some s') : MutexInv N s' := by
  obtain ⟨si, li, ec, we, wfl⟩ := h
  cases hpc : s.sensor with
  | loop =>
    simp only [sensor_step, hpc, Option.some.injEq] at hs
    subst hs
    rw [hpc] at si
    refine ⟨?_, li, ?_, we, ?_⟩
    · dsimp only
      cases hr : s.running <;> simpa [sensor_holds] using si
    · dsimp only
      cases hr : s.running <;> simp
    · dsimp only
      cases hr : s.running <;> simp [sensor_waits]
  | read =>
    simp only [sensor_step, hpc, Option.some.injEq] at hs
    subst hs
    rw [hpc] at si
    refine ⟨?_, li, ?_, we, ?_⟩
    · dsimp only
      split <;> simpa [sensor_holds] using si
    · dsimp only
      split <;> simp
    · dsimp only
      split <;> simp [sensor_waits]
  | put_lock temp =>
    simp only [sensor_step, hpc] at hs
    split at hs
    · rename_i hm
      simp only [Option.some.injEq] at hs
      subst hs
      rw [hm] at li
      refine ⟨by simp [sensor_holds], ?_, by simp, we, by simp [sensor_waits]⟩
      dsimp only
      simpa using li
    · exact absurd hs (by simp)
  | put_test temp =>
    have hm : s.mutex = some .sensor := si.mpr (by rw [hpc]; rfl)
    rw [hm] at li
    simp only [sensor_step, hpc] at hs
    split at hs
    · rename_i hb
      rw [buffer_put_waits_iff] at hb
      simp only [Option.some.injEq] at hs
      subst hs
      refine ⟨by simp [sensor_holds, hm], ?_, by simp, we, fun _ => hb⟩
      dsimp only
      rw [hm]
      exact li
    · simp only [Option.some.injEq] at hs
      subst hs
      refine ⟨by simp [sensor_holds], ?_, by simp, ?_, by simp [sensor_waits]⟩
      · dsimp only
        rw [logger_holds_signal]
        simpa using li
      · dsimp only
        intro hw
        rcases hw with hw | hw
        · rw [signal_not_empty_eq_enter_wait] at hw
          rw [hw] at li
          simp [logger_holds] at li
        · exact absurd hw (signal_not_empty_ne_get_wait _)
  | put_enter_wait temp =>
    have hm : s.mutex = some .sensor := si.mpr (by rw [hpc]; rfl)
    have hfull := wfl (by rw [hpc]; rfl)
    rw [hm] at li
    simp only [sensor_step, hpc, Option.some.injEq] at hs
    subst hs
    refine ⟨by simp [sensor_holds], ?_, by simp, we, fun _ => hfull⟩
    dsimp only
    simpa using li
  | put_wait temp =>
    simp [sensor_step, hpc] at hs
  | put_woken temp =>
    simp only [sensor_step, hpc] at hs
    split at hs
    · rename_i hm
      simp only [Option.some.injEq] at hs
      subst hs
      rw [hm] at li
      refine ⟨by simp [sensor_holds], ?_, by simp, we, by simp [sensor_waits]⟩
      dsimp only
      simpa using li
    · exact absurd hs (by simp)
  | sleep =>
    simp only [sensor_step, hpc, Option.some.injEq] at hs
    subst hs
    rw [hpc] at si
    exact ⟨by simpa [sensor_holds] using si, li, by simp, we, by simp [sensor_waits]⟩
  | exit_signal =>
    have hr := ec (Or.inl hpc)
    simp only [sensor_step, hpc, Option.some.injEq] at hs
    subst hs
    rw [hpc] at si
    refine ⟨by simpa [sensor_holds] using si, ?_, fun _ => hr, ?_, by simp [sensor_waits]⟩
    · dsimp only
      rw [logger_holds_signal]
      exact li
    · dsimp only
      intro hw
      rcases hw with hw | hw
      · rw [signal_not_empty_eq_enter_wait] at hw
        exact we (Or.inl hw)
      · exact absurd hw (signal_not_empty_ne_get_wait _)
  | done =>
    simp [sensor_step, hpc] at hs

theorem mutexInv_logger (N : ℕ) (fopen_ok : Bool) (s s' : Sys) (h : MutexInv N s)
    (hs : logger_step N fopen_ok s = some s') : MutexInv N s' := by
  obtain ⟨si, li, ec, we, wfl⟩ := h
  cases hpc : s.logger with
  | start =>
    rw [hpc] at li
    simp only [logger_step, hpc] at hs
    split at hs <;>
    · simp only [Option.some.injEq] at hs
      subst hs
      exact ⟨si, by simpa [logger_holds] using li, ec, by simp, wfl⟩
  | loop =>
    rw [hpc] at li
    simp only [logger_step, hpc, Option.some.injEq] at hs
    subst hs
    refine ⟨si, ?_, ec, ?_, wfl⟩
    · dsimp only
      split <;> simpa [logger_holds] using li
    · dsimp only
      split <;> simp
  | loop_count =>
    rw [hpc] at li
    simp only [logger_step, hpc, Option.some.injEq] at hs
    subst hs
    refine ⟨si, ?_, ec, ?_, wfl⟩
    · dsimp only
      split <;> simpa [logger_holds] using li
    · dsimp only
      split <;> simp
  | get_lock =>
    simp only [logger_step, hpc] at hs
    split at hs
    · rename_i hm
      simp only [Option.some.injEq] at hs
      subst hs
      rw [hm] at si
      refine ⟨?_, by simp [logger_holds], ec, by simp, wfl⟩
      dsimp only
      simpa using si
    · exact absurd hs (by simp)
  | get_test =>
    have hm : s.mutex = some .logger := li.mpr (by rw [hpc]; rfl)
    simp only [logger_step, hpc, Option.some.injEq] at hs
    subst hs
    refine ⟨si, ?_, ec, ?_, wfl⟩
    · dsimp only
      split <;> simp [logger_holds, hm]
    · dsimp only
      intro hw
      split at hw
      · rename_i hc
        exact hc.1
      · simp at hw
  | get_enter_wait =>
    have hm : s.mutex = some .logger := li.mpr (by rw [hpc]; rfl)
    have hc := we (Or.inl hpc)
    rw [hm] at si
    simp only [logger_step, hpc, Option.some.injEq] at hs
    subst hs
    refine ⟨?_, by simp [logger_holds], ec, fun _ => hc, wfl⟩
    dsimp only
    simpa using si
  | get_wait =>
    simp [logger_step, hpc] at hs
  | get_woken =>
    simp only [logger_step, hpc] at hs
    split at hs
    · rename_i hm
      simp only [Option.some.injEq] at hs
      subst hs
      rw [hm] at si
      refine ⟨?_, by simp [logger_holds], ec, by simp, wfl⟩
      dsimp only
      simpa using si
    · exact absurd hs (by simp)
  | get_if =>
    have hm : s.mutex = some .logger := li.mpr (by rw [hpc]; rfl)
    rw [hm] at si
    simp only [logger_step, hpc] at hs
    split at hs
    · simp only [Option.some.injEq] at hs
      subst hs
      refine ⟨?_, by simp [logger_holds], ec, by simp, wfl⟩
      dsimp only
      simpa using si
    · simp only [Option.some.injEq] at hs
      subst hs
      refine ⟨?_, ?_, ?_, ?_, ?_⟩
      · dsimp only
        rw [sensor_holds_signal]
        simpa using si
      · dsimp only
        split <;> simp [logger_holds]
      · dsimp only
        rw [signal_not_full_eq_exit]
        exact ec
      · dsimp only
        split <;> simp
      · dsimp only
        intro hw
        have := si.mpr (sensor_waits_signal _ hw)
        simp at this
  | closing =>
    rw [hpc] at li
    simp only [logger_step, hpc, Option.some.injEq] at hs
    subst hs
    exact ⟨si, by simpa [logger_holds] using li, ec, by simp, wfl⟩
  | done =>
    simp [logger_step, hpc] at hs

theorem mutexInv_reachable (N : ℕ) (s : Sys) (h : SysReachable N s) : MutexInv N s := by
  induction h with
  | init b0 _ => exact mutexInv_init N b0
  | step a s s' _ hs ih =>
    cases a with
    | trigger =>
      simp only [step, Option.some.injEq] at hs
      subst hs
      obtain ⟨si, li, ec, we, wfl⟩ := ih
      exact ⟨si, li, fun _ => rfl, we, wfl⟩
    | sensor reading => exact mutexInv_sensor N reading s s' ih hs
    | logger fopen_ok => exact mutexInv_logger N fopen_ok s s' ih hs

theorem mutex_free (N : ℕ) (s : Sys) (h : MutexInv N s) (h1 : sensor_holds s.sensor = false)
    (h2 : logger_holds s.logger = false) : s.mutex = none := by
  obtain ⟨si, li, _, _, _⟩ := h
  cases hmx : s.mutex with
  | none => rfl
  | some t =>
    cases t with
    | sensor =>
      have := si.mp hmx
      rw [h1] at this
      exact absurd this (by simp)
    | logger =>
      have := li.mp hmx
      rw [h2] at this
      exact absurd this (by simp)

/-- Mutual exclusion: in no reachable state are both threads between a lock and
an unlock of the buffer's mutex. -/
theorem mutual_exclusion (N : ℕ) (s : Sys) (h : SysReachable N s) :
    ¬ (sensor_holds s.sensor = true ∧ logger_holds s.logger = true) := by
  obtain ⟨si, li, _, _, _⟩ := mutexInv_reachable N s h
  rintro ⟨h1, h2⟩
  have e1 := si.mpr h1
  have e2 := li.mpr h2
  rw [e1] at e2
  exact absurd e2 (by simp)

/-- When the logger is already blocked in `pthread_cond_wait` at the time the
sampler, out of its loop, calls `pthread_cond_signal`, the wake-up works: the
logger is woken, takes the mutex, finds the buffer empty and `running` cleared,
and returns. -/
theorem wake_on_close_when_blocked (N : ℕ) (s : Sys) (hr : SysReachable N s)
    (hl : s.logger = .get_wait) (hsen : s.sensor = .exit_signal) :
    ∃ s', run N [.sensor 0, .logger true, .logger true, .logger true, .logger true] s = some s' ∧
      s'.logger = .done ∧ s'.sensor = .done ∧ s'.buffer = s.buffer := by
  have hmi := mutexInv_reachable N s hr
  have hm := mutex_free N s hmi (by rw [hsen]; rfl) (by rw [hl]; rfl)
  have hrun := hmi.exit_closed (Or.inl hsen)
  have hc := hmi.wait_empty (Or.inr hl)
  simp [run, step, sensor_step, logger_step, hsen, hl, signal_not_empty, hm, hc, hrun]

theorem wake_on_close_when_blocked_example :
    run BUFFER_SIZE wakeTrace Sys.init = some wakeState ∧ wakeState.joined := by
  decide!

/-! ## C5: put blocks exactly when full -/

/-- The scenario of C5 with capacity 2, call by call: `put(10.0)` and `put(20.0)`
complete, `put(30.0)` waits, `get()` returns `10.0`, a put then completes and the
contents are `[20.0, 30.0]`. -/
theorem put_scenario_capacity_two :
    buffer_put 2 (buffer_init small0) 10
      = .done { data := [10, 0], head := 1, tail := 0, count := 1 } ∧
    buffer_put 2 { data := [10, 0], head := 1, tail := 0, count := 1 } 20 = .done smallFull ∧
    buffer_put 2 smallFull 30 = .waits ∧
    buffer_get 2 true smallFull
      = .returned 10 { data := [10, 20], head := 0, tail := 1, count := 1 } ∧
    buffer_put 2 { data := [10, 20], head := 0, tail := 1, count := 1 } 30
      = .done { data := [30, 20], head := 1, tail := 1, count := 2 } ∧
    contents 2 { data := [30, 20], head := 1, tail := 1, count := 2 } = [20, 30] := by
  decide

/-- The scenario of C5 with capacity 2 in the running program: the sampler
enqueues `10.0` and `20.0` and blocks in `pthread_cond_wait` with `30.0` in hand;
it has no step; the logger's `buffer_get` takes out `10.0` and wakes it; its put
then completes and the contents are `[20.0, 30.0]`. -/
theorem pending_put_scenario :
    run 2 pendingPutTrace (Sys.start small0) = some pendingPutState ∧
    sensor_step 2 0 pendingPutState = none ∧
    run 2 [.logger true, .logger true, .logger true] pendingPutState = some pendingPutWoken ∧
    run 2 [.sensor 0, .sensor 0] pendingPutWoken = some pendingPutDone ∧
    contents 2 pendingPutDone.buffer = [20, 30] := by
  decide!

/-! ## C6: drain before stop -/

/-- C6, as amended.  In every reachable state in which both threads have returned:
if the logger's sink opened and no put completed after the logger's last look at
the buffer (the loop test or the closed check of `buffer_get` at which it left
its loop), then `buffer.count == 0` and every sample that was enqueued has been
taken out and written; if the sink did not open, the logger wrote nothing and
the buffer holds every sample enqueued. -/
theorem drain_before_stop (s : Sys) (hr : SysReachable BUFFER_SIZE s) (hj : s.joined) :
    (s.opened = true → s.late = 0 → s.buffer.count = 0 ∧ s.written = s.enqueued) ∧
    (s.opened = false → s.written = [] ∧ contents BUFFER_SIZE s.buffer = s.enqueued) := by
  obtain ⟨wf, ok, hand, hist, st, unop, lz, al, gi⟩ := inv_reachable BUFFER_SIZE (by decide) s hr
  obtain ⟨_, hl⟩ := hj
  refine ⟨?_, ?_⟩
  · intro ho h0
    have hc : s.buffer.count = 0 := by
      rw [al (by rw [hl]; rfl) ho, h0]
      rfl
    refine ⟨hc, ?_⟩
    rw [hist, contents_of_count_zero _ _ hc, List.append_nil]
  · intro ho
    obtain ⟨u1, _⟩ := unop ho
    refine ⟨u1, ?_⟩
    rw [hist, u1, List.nil_append]

theorem drain_before_stop_witness :
    (SysReachable BUFFER_SIZE cleanState ∧ cleanState.joined) ∧
    ((cleanState.opened = true → cleanState.late = 0 →
        cleanState.buffer.count = 0 ∧ cleanState.written = cleanState.enqueued) ∧
    (cleanState.opened = false → cleanState.written = [] ∧
      contents BUFFER_SIZE cleanState.buffer = cleanState.enqueued)) :=
  ⟨⟨reachable_run BUFFER_SIZE cleanTrace _ _ (SysReachable.init buffer0 (by decide))
      (by decide!), by decide⟩,
   drain_before_stop cleanState
     (reachable_run BUFFER_SIZE cleanTrace _ _ (SysReachable.init buffer0 (by decide))
       (by decide!)) (by decide)⟩

/-- A clean shutdown, evaluated: the one sample enqueued is written and the buffer
is empty when both threads have returned. -/
theorem clean_shutdown_example :
    run BUFFER_SIZE cleanTrace Sys.init = some cleanState ∧ cleanState.joined ∧
    cleanState.opened = true ∧ cleanState.late = 0 ∧ cleanState.buffer.count = 0 ∧
    cleanState.written = [22] ∧ cleanState.enqueued = [22] := by
  decide!

/-- C6 as stated fails when the logger cannot open its sink: `logger_thread`
returns at once; the sampler enqueues `22.0`; after the trigger the sampler
returns too; both threads have returned and `buffer.count` is 1, the sample
never written. -/
theorem drain_before_stop_counterexample :
    run BUFFER_SIZE sinkFailureTrace Sys.init = some sinkFailureState ∧
    sinkFailureState.joined ∧ sinkFailureState.opened = false ∧
    sinkFailureState.buffer.count = 1 ∧ sinkFailureState.written = [] ∧
    sinkFailureState.enqueued = [22] := by
  decide!

/-- A defect of the code, apart from the sink: the drain loop
`while (running || buffer.count > 0)` can miss a sample.  The sink opens; the
sampler passes its loop test; the trigger fires; the logger sees `running == 0`
and an empty buffer and returns; the sampler then enqueues the reading it holds.
Both threads have returned, `buffer.count` is 1 and the sample is never
written. -/
theorem late_put_after_logger_return :
    run BUFFER_SIZE latePutTrace Sys.init = some latePutState ∧ latePutState.joined ∧
    latePutState.opened = true ∧ latePutState.buffer.count = 1 ∧
    latePutState.written = [] ∧ latePutState.enqueued = [22] := by
  decide!

/-! ## C9: wake on close -/

/-- C9 fails on the code.  The logger tests `count == 0 && running` with the
buffer empty and `running` set, and goes on to call `pthread_cond_wait`; before
that call the trigger clears `running` and the sampler, out of its loop, calls
`pthread_cond_signal(&buffer.not_empty)`, which finds nobody waiting; the
logger then blocks.  The sampler has returned, and in every continuation of the
run the logger is still blocked in `pthread_cond_wait`: it never observes the
closure and never returns the closed result. -/
theorem missed_wakeup :
    run BUFFER_SIZE missedWakeupTrace Sys.init = some missedWakeupState ∧
    missedWakeupState.running = false ∧ missedWakeupState.buffer.count = 0 ∧
    missedWakeupState.sensor = .done ∧ missedWakeupState.logger = .get_wait ∧
    ∀ acts s', run BUFFER_SIZE acts missedWakeupState = some s' →
      s'.logger = .get_wait ∧ s'.sensor = .done ∧ ¬ s'.joined := by
  refine ⟨by decide!, by decide, by decide, by decide, by decide, ?_⟩
  intro acts s' h
  obtain ⟨h1, h2⟩ :=
    blocked_forever BUFFER_SIZE acts missedWakeupState s' (by decide) (by decide) h
  refine ⟨h1, h2, ?_⟩
  intro hj
  rw [hj.2] at h1
  exact absurd h1 (by simp)

end TempLogger
